import Mathlib

/-!
Verification of the chunked media `FileUploader` (src/lib/file_uploader.js).

The source is a single-threaded, event-driven JavaScript module.  We give a
shallow embedding:

* `_initMedia` (lines 177-206) becomes the pure function `initMedia`: MIME
  lookup and the `fs.statSync` result are inputs (the stat is an external
  collaborator; a stat failure is an `Except.error`, and since the source has
  no try/catch around `statSync`, a failing stat yields the outcome
  `InitOutcome.thrown`, an exception escaping `upload()`).
* `checkAsyncFinish` (lines 48-84) and the inner `checkStatus` (lines 55-76)
  become the pure response-handlers `checkAsyncFinishStep` / `checkStatusStep`
  returning an explicit outcome (callback invocation, or a `setTimeout`
  scheduling with its delay in seconds).
* `upload` (lines 36-118) becomes a labeled-free small-step transition
  relation `Step` over the session state `St`.  The environment
  (file stream events, transport responses, timers) chooses steps
  nondeterministically.  The `strict` flag controls the stream collaborator
  model: when `strict = true` the stream never emits its `end` event while
  paused (Node read-stream behavior); when `strict = false` the `end` event
  may arrive at any moment once all chunks were emitted, in particular while
  the last APPEND is still outstanding (the generous model described by the
  spec, which makes the two-flag completion race fully nondeterministic).
  Every invariant proved for arbitrary `strict` covers both models.

Chunk payload strings in the machine stand for the base64-encoded chunk
bodies emitted by the paused/resumed read stream (`chunk.toString('base64')`
at line 92); `media_id` is the `media_id_string` of the INIT response,
already a string, so `toString()` at line 166 is the identity on it.
-/

namespace Twit

namespace FileUploader

/-- `MAX_FILE_SIZE_BYTES` (line 6). -/
def MAX_FILE_SIZE_BYTES : Nat := 15 * 1024 * 1024

/-- `MAX_VIDEO_SIZE_BYTES` (line 7). -/
def MAX_VIDEO_SIZE_BYTES : Nat := 512 * 1024 * 1024

/-- `MAX_FILE_CHUNK_BYTES` (line 8), the read stream's `highWaterMark`. -/
def MAX_FILE_CHUNK_BYTES : Nat := 5 * 1024 * 1024

/-- `imageMime` (line 181). -/
def imageMime : List String := ["image/png", "image/jpeg", "image/webp"]

/-- `animatedGifMime` (line 182). -/
def animatedGifMime : List String := ["image/gif"]

/-- `videoMime` (line 183). -/
def videoMime : List String := ["video/mp4"]

/-- `maxSizeBytes` (line 184): `videoMime.indexOf(mediaType) >= 0 ?
MAX_VIDEO_SIZE_BYTES : MAX_FILE_SIZE_BYTES`. -/
def maxSizeFor (mediaType : String) : Nat :=
  if videoMime.contains mediaType then MAX_VIDEO_SIZE_BYTES else MAX_FILE_SIZE_BYTES

/-- The `media_category` computation (lines 194-199): a `null` variable,
sequentially overwritten by the three membership tests; `none` models the
JavaScript `null` (line 200 only adds the key when the value is truthy). -/
def mediaCategoryFor (mediaType : String) : Option String :=
  let c0 : Option String := none
  let c1 := if imageMime.contains mediaType then some "tweet_image" else c0
  let c2 := if animatedGifMime.contains mediaType then some "tweet_gif" else c1
  if videoMime.contains mediaType then some "tweet_video" else c2

/-- The `initParameters` object (lines 189-200).  `media_category = none`
means the key is absent from the request. -/
structure InitParameters where
  command : String
  media_type : String
  total_bytes : Nat
  media_category : Option String
deriving DecidableEq

/-- The oversize message built with `util.format` at line 203. -/
def fmtOversize (maxB actual : Nat) : String :=
  "This file is too large. Max size is " ++ toString maxB ++ "B. Got: " ++
    toString actual ++ "B."

/-- What `_initMedia` does: either the `statSync` exception escapes
(`thrown`), or the callback fires once with the oversize error message and no
transport call is made (`cbError`), or the INIT request is posted
(`post`). -/
inductive InitOutcome
  | thrown (e : String)
  | cbError (errMsg : String)
  | post (params : InitParameters)
deriving DecidableEq

/-- `FileUploader.prototype._initMedia` (lines 177-206).  `mediaType` is the
result of `mime.lookup` and `statResult` the result of
`fs.statSync(...).size`, both external collaborators. -/
def initMedia (mediaType : String) (statResult : Except String Nat) : InitOutcome :=
  match statResult with
  | Except.error e => InitOutcome.thrown e
  | Except.ok mediaFileSizeBytes =>
    if mediaFileSizeBytes < maxSizeFor mediaType then
      InitOutcome.post
        { command := "INIT"
          media_type := mediaType
          total_bytes := mediaFileSizeBytes
          media_category := mediaCategoryFor mediaType }
    else
      InitOutcome.cbError (fmtOversize (maxSizeFor mediaType) mediaFileSizeBytes)

/-- `processing_info` of a FINALIZE/STATUS response body.  `error` is the
message of the nested `error` object when that object is present. -/
structure ProcessingInfo where
  state : String
  check_after_secs : Option Nat
  progress_percent : Option Nat
  error : Option String
deriving DecidableEq

/-- A parsed transport response body; only the fields the uploader reads. -/
structure Body where
  media_id_string : Option String
  processing_info : Option ProcessingInfo
deriving DecidableEq

/-- JavaScript `if (!waitTime) waitTime = d` (lines 65 and 78): an absent
field and the number 0 are both falsy and replaced by the default. -/
def jsDefault (w : Option Nat) (d : Nat) : Nat :=
  match w with
  | some n => if n = 0 then d else n
  | none => d

/-- Outcome of `checkAsyncFinish` on a FINALIZE response. -/
inductive FinishOutcome
  | cbErr (e : String)
  | cbSuccess (body : Body)
  | scheduleStatus (delaySecs : Nat)
deriving DecidableEq

/-- `checkAsyncFinish` (lines 48-84): a transport error is passed to the
callback; a body without `processing_info` is passed to the callback with the
`null` error; otherwise a first STATUS poll is scheduled after
`check_after_secs` seconds, default 5 (lines 77-79). -/
def checkAsyncFinishStep (resp : Except String Body) : FinishOutcome :=
  match resp with
  | Except.error e => FinishOutcome.cbErr e
  | Except.ok body =>
    match body.processing_info with
    | some pi => FinishOutcome.scheduleStatus (jsDefault pi.check_after_secs 5)
    | none => FinishOutcome.cbSuccess body

/-- Outcome of one `checkStatus` STATUS response (lines 56-75).
`scheduleStatus` carries the delay of the re-scheduled poll and the surfaced
`progress_percent` (the `console.log` at line 64); `thrownError` models the
TypeError raised when the code dereferences an absent field. -/
inductive StatusOutcome
  | cbErr (e : String)
  | scheduleStatus (delaySecs : Nat) (progressShown : Option Nat)
  | cbFailed (message : String)
  | cbSuccess (body : Body)
  | silentStop
  | thrownError
deriving DecidableEq

/-- The STATUS response handler inside `checkStatus` (lines 56-75): switch on
`processing_info.state` with cases `in_progress` (log progress, re-poll after
`check_after_secs`, default 3), `failed` (callback with
`processing_info.error.message`), `succeeded` (callback with the body); any
other state falls through the switch and nothing happens. -/
def checkStatusStep (resp : Except String Body) : StatusOutcome :=
  match resp with
  | Except.error e => StatusOutcome.cbErr e
  | Except.ok body =>
    match body.processing_info with
    | none => StatusOutcome.thrownError
    | some pi =>
      if pi.state = "in_progress" then
        StatusOutcome.scheduleStatus (jsDefault pi.check_after_secs 3) pi.progress_percent
      else if pi.state = "failed" then
        match pi.error with
        | some m => StatusOutcome.cbFailed m
        | none => StatusOutcome.thrownError
      else if pi.state = "succeeded" then
        StatusOutcome.cbSuccess body
      else
        StatusOutcome.silentStop

/-- A transport command issued by the uploader, in issue order.  The INIT
payload shaping is `initMedia` above; the machine's log only records that the
INIT post of line 201 happened. -/
inductive Cmd
  | initC
  | append (media_id : String) (media : String) (segment_index : Nat)
  | finalizeC
  | statusC
deriving DecidableEq

/-- A terminal-callback invocation: `cb(err)` or `cb(null, bodyObj, resp)`. -/
inductive CbEvent
  | err (msg : String)
  | ok (body : Body)
deriving DecidableEq

/-- The run-time state of one `upload()` call, after `_initMedia` has posted
INIT.  `isUploading`, `isFileStreamEnded` and `chunkNumber` are the program
variables of the source (lines 27-28 and 46); the remaining fields are the
event-loop bookkeeping the embedding makes explicit: whether the read stream
is paused, how many `data` events it has emitted, whether `end` has fired,
which transport responses and timers are outstanding, the log of issued
commands and the log of callback invocations.  `silenced` records that a
STATUS response fell through the switch (no case matched), `crashed` that a
TypeError was thrown from the STATUS handler. -/
structure St where
  isUploading : Bool
  isFileStreamEnded : Bool
  chunkNumber : Nat
  paused : Bool
  emitted : Nat
  endEmitted : Bool
  streamCreated : Bool
  initPending : Bool
  appendPending : Nat
  finalizePending : Nat
  timerPending : Bool
  statusPending : Bool
  silenced : Bool
  crashed : Bool
  sent : List Cmd
  cbs : List CbEvent
deriving DecidableEq

/-- `FileUploader.prototype._isUploadComplete` (lines 120-122). -/
def isUploadComplete (s : St) : Bool :=
  !s.isUploading && s.isFileStreamEnded

/-- State right after `upload()` ran `_initMedia` and INIT was posted
(line 201): the INIT callback is outstanding, nothing else happened yet. -/
def initSt : St :=
  { isUploading := false, isFileStreamEnded := false, chunkNumber := 0,
    paused := false, emitted := 0, endEmitted := false, streamCreated := false,
    initPending := true, appendPending := 0, finalizePending := 0,
    timerPending := false, statusPending := false, silenced := false,
    crashed := false, sent := [Cmd.initC], cbs := [] }

/-- INIT response with no error (lines 44-47): capture `media_id_string`,
create the read stream and register the `data`/`end` handlers. -/
def applyInitOk (s : St) : St :=
  { s with initPending := false, streamCreated := true }

/-- INIT response with an error (lines 41-43): `cb(err); return` — the
stream is never created. -/
def applyInitErr (s : St) (e : String) : St :=
  { s with initPending := false, cbs := s.cbs ++ [CbEvent.err e] }

/-- The `data` handler (lines 86-92): pause the stream, set
`isUploading = true` and post APPEND with the current `chunkNumber` as
`segment_index`; the APPEND callback becomes outstanding. -/
def applyEmitData (mediaId : String) (chunks : List String) (s : St) : St :=
  { s with paused := true, isUploading := true,
           appendPending := s.appendPending + 1,
           emitted := s.emitted + 1,
           sent := s.sent ++ [Cmd.append mediaId (chunks.getD s.emitted "") s.chunkNumber] }

/-- The `end` handler (lines 109-115): set `isFileStreamEnded = true`, and if
`_isUploadComplete()` now holds, post FINALIZE. -/
def applyEmitEnd (s : St) : St :=
  let s1 := { s with endEmitted := true, isFileStreamEnded := true }
  if isUploadComplete s1 then
    { s1 with finalizePending := s1.finalizePending + 1, sent := s1.sent ++ [Cmd.finalizeC] }
  else s1

/-- The APPEND callback with no error (lines 93, 96-105): clear
`isUploading`; if `_isUploadComplete()` holds post FINALIZE, otherwise
increment `chunkNumber` and resume the stream. -/
def applyAppendOk (s : St) : St :=
  let s1 := { s with appendPending := s.appendPending - 1, isUploading := false }
  if isUploadComplete s1 then
    { s1 with finalizePending := s1.finalizePending + 1, sent := s1.sent ++ [Cmd.finalizeC] }
  else
    { s1 with chunkNumber := s1.chunkNumber + 1, paused := false }

/-- The APPEND callback with an error (lines 93-95): clear `isUploading` and
call `cb(err)`; the stream stays paused and is never resumed. -/
def applyAppendErr (s : St) (e : String) : St :=
  { s with appendPending := s.appendPending - 1, isUploading := false,
           cbs := s.cbs ++ [CbEvent.err e] }

/-- The FINALIZE response handler is `checkAsyncFinish` (lines 48-84):
either a callback invocation, or the first STATUS poll timer is armed. -/
def applyFinalizeResp (s : St) (resp : Except String Body) : St :=
  let s1 := { s with finalizePending := s.finalizePending - 1 }
  match checkAsyncFinishStep resp with
  | FinishOutcome.cbErr e => { s1 with cbs := s1.cbs ++ [CbEvent.err e] }
  | FinishOutcome.cbSuccess b => { s1 with cbs := s1.cbs ++ [CbEvent.ok b] }
  | FinishOutcome.scheduleStatus _ => { s1 with timerPending := true }

/-- A `setTimeout(checkStatus, ...)` timer fires (line 66 or 79):
`checkStatus` runs and posts STATUS (lines 131-137); its response callback
becomes outstanding. -/
def applyTimerFire (s : St) : St :=
  { s with timerPending := false, statusPending := true, sent := s.sent ++ [Cmd.statusC] }

/-- The STATUS response handler (lines 56-75), via `checkStatusStep`:
callback, re-armed timer, silent fall-through, or a thrown TypeError
(process crash). -/
def applyStatusResp (s : St) (resp : Except String Body) : St :=
  let s1 := { s with statusPending := false }
  match checkStatusStep resp with
  | StatusOutcome.cbErr e => { s1 with cbs := s1.cbs ++ [CbEvent.err e] }
  | StatusOutcome.cbFailed m => { s1 with cbs := s1.cbs ++ [CbEvent.err m] }
  | StatusOutcome.cbSuccess b => { s1 with cbs := s1.cbs ++ [CbEvent.ok b] }
  | StatusOutcome.scheduleStatus _ _ => { s1 with timerPending := true }
  | StatusOutcome.silentStop => { s1 with silenced := true }
  | StatusOutcome.thrownError => { s1 with crashed := true }

/-- One event-loop step of an upload session.  The environment chooses which
outstanding event fires next and the content of transport responses.  Stream
events fire only while the process has not crashed; `data` fires only while
the stream is unpaused, has unread chunks and has not ended; `end` fires once
all chunks were emitted, and when `strict = true` only while unpaused (Node
read-stream behavior — pausing defers `end`).  With `strict = false` the
exhaustion signal may also arrive while the last APPEND is outstanding, the
race described by the spec. -/
inductive Step (strict : Bool) (mediaId : String) (chunks : List String) : St → St → Prop
  | initOk (s : St) : s.crashed = false → s.initPending = true →
      Step strict mediaId chunks s (applyInitOk s)
  | initErr (s : St) (e : String) : s.crashed = false → s.initPending = true →
      Step strict mediaId chunks s (applyInitErr s e)
  | emitData (s : St) : s.crashed = false → s.streamCreated = true →
      s.paused = false → s.emitted < chunks.length → s.endEmitted = false →
      Step strict mediaId chunks s (applyEmitData mediaId chunks s)
  | emitEnd (s : St) : s.crashed = false → s.streamCreated = true →
      s.emitted = chunks.length → s.endEmitted = false →
      (strict = true → s.paused = false) →
      Step strict mediaId chunks s (applyEmitEnd s)
  | appendOk (s : St) : s.crashed = false → 0 < s.appendPending →
      Step strict mediaId chunks s (applyAppendOk s)
  | appendErr (s : St) (e : String) : s.crashed = false → 0 < s.appendPending →
      Step strict mediaId chunks s (applyAppendErr s e)
  | finalizeResp (s : St) (resp : Except String Body) : s.crashed = false →
      0 < s.finalizePending →
      Step strict mediaId chunks s (applyFinalizeResp s resp)
  | timerFire (s : St) : s.crashed = false → s.timerPending = true →
      Step strict mediaId chunks s (applyTimerFire s)
  | statusResp (s : St) (resp : Except String Body) : s.crashed = false →
      s.statusPending = true →
      Step strict mediaId chunks s (applyStatusResp s resp)

/-- States reachable by an upload session from the moment INIT was posted. -/
inductive Reach (strict : Bool) (mediaId : String) (chunks : List String) : St → Prop
  | base : Reach strict mediaId chunks initSt
  | step (s s' : St) : Reach strict mediaId chunks s →
      Step strict mediaId chunks s s' → Reach strict mediaId chunks s'

/-- No event can fire any more: the session is over (or hung forever). -/
def Quiescent (strict : Bool) (mediaId : String) (chunks : List String) (s : St) : Prop :=
  ∀ s', ¬ Step strict mediaId chunks s s'

/-- Number of FINALIZE commands in a transport log. -/
def finCount (l : List Cmd) : Nat :=
  (l.filter fun c => c = Cmd.finalizeC).length

/-- The APPEND commands of a transport log, in issue order. -/
def appendsOf (l : List Cmd) : List Cmd :=
  l.filter fun c =>
    match c with
    | Cmd.append _ _ _ => true
    | _ => false

/-- Whether a callback-invocation log contains an error invocation. -/
def hasErr (l : List CbEvent) : Bool :=
  l.any fun c =>
    match c with
    | CbEvent.err _ => true
    | _ => false

/-- Whether some callback invocation of the session carried an error. -/
def hasErrCb (s : St) : Bool :=
  hasErr s.cbs

/-- The inductive invariant of the upload session, for both stream models.
Together these clauses pin down the two-flag completion machinery: at most
one APPEND outstanding, `isUploading` mirrors it, FINALIZE is issued at most
once and only with the flags reading `(false, true)`, the APPEND log is the
gap-free sequence of segment indices `0, 1, …`, and the post-FINALIZE poller
bookkeeping. -/
structure Inv (mediaId : String) (chunks : List String) (s : St) : Prop where
  pendEq : s.appendPending = if s.isUploading then 1 else 0
  uploadPaused : s.isUploading = true → s.paused = true
  endedFlag : s.isFileStreamEnded = s.endEmitted
  endedAll : s.endEmitted = true → s.emitted = chunks.length
  emittedLe : s.emitted ≤ chunks.length
  unpausedCount : s.paused = false → s.chunkNumber = s.emitted
  chunkPend : s.chunkNumber + s.appendPending = s.emitted
      ∨ finCount s.sent = 1 ∨ hasErrCb s = true
  appendLog : appendsOf s.sent =
      (List.range s.emitted).map fun i => Cmd.append mediaId (chunks.getD i "") i
  finLe : finCount s.sent ≤ 1
  finFlags : finCount s.sent = 1 → s.endEmitted = true ∧ s.isUploading = false
  finPendLe : s.finalizePending ≤ finCount s.sent
  postFin : 0 < s.finalizePending ∨ s.timerPending = true ∨ s.statusPending = true
      ∨ s.silenced = true ∨ s.crashed = true → finCount s.sent = 1
  pausedInv : s.paused = true →
      s.appendPending = 1 ∨ finCount s.sent = 1 ∨ hasErrCb s = true
  endedDone : s.endEmitted = true → s.isUploading = false →
      finCount s.sent = 1 ∨ hasErrCb s = true
  initInv : s.initPending = true →
      s.streamCreated = false ∧ s.cbs = [] ∧ s.paused = false
  noStream : s.streamCreated = false →
      s.emitted = 0 ∧ s.endEmitted = false ∧ s.appendPending = 0
      ∧ s.finalizePending = 0 ∧ s.timerPending = false ∧ s.statusPending = false
      ∧ finCount s.sent = 0 ∧ s.silenced = false ∧ s.crashed = false
      ∧ s.paused = false
  initResolved : s.initPending = false → s.streamCreated = true ∨ hasErrCb s = true
  finDelivered : finCount s.sent = 1 → s.finalizePending = 0 →
      s.timerPending = false → s.statusPending = false → s.silenced = false →
      s.crashed = false → s.cbs ≠ []
  errStuck : hasErrCb s = true →
      s.streamCreated = false ∨ s.paused = true ∨ s.endEmitted = true
  errNoPend : hasErrCb s = true → s.appendPending = 0

/-- Additional invariant of the strict stream model (`strict = true`, the
Node behavior: a paused stream defers its `end` event).  The callback log
never exceeds one entry, any outstanding event implies no callback has fired
yet, the poller has at most one outstanding continuation, and once a
callback fired the stream can produce nothing further. -/
structure InvS (mediaId : String) (chunks : List String) (s : St) : Prop where
  cbsLe : s.cbs.length ≤ 1
  pendCbs : s.initPending = true ∨ 0 < s.appendPending ∨ 0 < s.finalizePending
      ∨ s.timerPending = true ∨ s.statusPending = true → s.cbs = []
  pendExcl : (if 0 < s.finalizePending then 1 else 0)
      + (if s.timerPending then 1 else 0)
      + (if s.statusPending then 1 else 0) ≤ 1
  errStall : s.cbs ≠ [] →
      s.streamCreated = false ∨ s.paused = true ∨ s.endEmitted = true

/-- Number of completion-callback invocations `_initMedia` itself performs:
a thrown `statSync` exception reaches no callback, the oversize branch calls
`cb` once, and the post branch hands the callback to the transport. -/
def InitOutcome.callbackCount : InitOutcome → Nat
  | InitOutcome.thrown _ => 0
  | InitOutcome.cbError _ => 1
  | InitOutcome.post _ => 0

/-- An `in_progress` STATUS body whose wait hint is present but zero. -/
def inProgressZeroHint : Body :=
  { media_id_string := none,
    processing_info := some
      { state := "in_progress", check_after_secs := some 0,
        progress_percent := some 42, error := none } }

/-- An `in_progress` STATUS body with no wait hint. -/
def inProgressNoHint : Body :=
  { media_id_string := none,
    processing_info := some
      { state := "in_progress", check_after_secs := none,
        progress_percent := some 10, error := none } }

/-- A FINALIZE response body carrying `processing_info` (async media). -/
def procBody : Body :=
  { media_id_string := some "7",
    processing_info := some
      { state := "in_progress", check_after_secs := some 1,
        progress_percent := none, error := none } }

/-- A STATUS response body with the undocumented state "pending". -/
def pendingBody : Body :=
  { media_id_string := some "7",
    processing_info := some
      { state := "pending", check_after_secs := none,
        progress_percent := none, error := none } }

/-- A FINALIZE response body without `processing_info` (sync media). -/
def plainBody : Body :=
  { media_id_string := some "7", processing_info := none }

/-- Execution of an upload of an empty file whose FINALIZE response carries
`processing_info` and whose first STATUS response carries the unrecognized
state "pending": INIT ok, `end`, FINALIZE, FINALIZE response, timer, STATUS,
STATUS response. -/
def silentFinalSt : St :=
  applyStatusResp
    (applyTimerFire
      (applyFinalizeResp (applyEmitEnd (applyInitOk initSt)) (Except.ok procBody)))
    (Except.ok pendingBody)

/-- Execution of a successful one-chunk upload ("a" stands for the base64
body of the single chunk): INIT ok, one `data` event, APPEND ok, `end`,
FINALIZE, FINALIZE response without `processing_info`. -/
def happyFinalSt : St :=
  applyFinalizeResp
    (applyEmitEnd (applyAppendOk (applyEmitData "m" ["a"] (applyInitOk initSt))))
    (Except.ok plainBody)

@[simp] theorem finCount_append_app (l : List Cmd) (a b : String) (c : Nat) :
    finCount (l ++ [Cmd.append a b c]) = finCount l := by
  simp [finCount, List.filter_append]

@[simp] theorem finCount_append_fin (l : List Cmd) :
    finCount (l ++ [Cmd.finalizeC]) = finCount l + 1 := by
  simp [finCount, List.filter_append]

@[simp] theorem finCount_append_status (l : List Cmd) :
    finCount (l ++ [Cmd.statusC]) = finCount l := by
  simp [finCount, List.filter_append]

@[simp] theorem appendsOf_append_app (l : List Cmd) (a b : String) (c : Nat) :
    appendsOf (l ++ [Cmd.append a b c]) = appendsOf l ++ [Cmd.append a b c] := by
  simp [appendsOf, List.filter_append]

@[simp] theorem appendsOf_append_fin (l : List Cmd) :
    appendsOf (l ++ [Cmd.finalizeC]) = appendsOf l := by
  simp [appendsOf, List.filter_append]

@[simp] theorem appendsOf_append_status (l : List Cmd) :
    appendsOf (l ++ [Cmd.statusC]) = appendsOf l := by
  simp [appendsOf, List.filter_append]

@[simp] theorem hasErr_append_err (l : List CbEvent) (e : String) :
    hasErr (l ++ [CbEvent.err e]) = true := by
  simp [hasErr]

@[simp] theorem hasErr_append_ok (l : List CbEvent) (b : Body) :
    hasErr (l ++ [CbEvent.ok b]) = hasErr l := by
  simp [hasErr]

@[simp] theorem hasErr_nil : hasErr [] = false := by
  simp [hasErr]

/-- Shape of `applyEmitEnd` when no APPEND is outstanding: the transition to
FINALIZE is performed by the `end` handler. -/
theorem applyEmitEnd_fin (s : St) (h : s.isUploading = false) :
    applyEmitEnd s = { s with
      endEmitted := true
      isFileStreamEnded := true
      finalizePending := s.finalizePending + 1
      sent := s.sent ++ [Cmd.finalizeC] } := by
  simp [applyEmitEnd, isUploadComplete, h]

/-- Shape of `applyEmitEnd` while an APPEND is outstanding: only the flag is
set; the APPEND callback will perform the transition. -/
theorem applyEmitEnd_wait (s : St) (h : s.isUploading = true) :
    applyEmitEnd s = { s with endEmitted := true, isFileStreamEnded := true } := by
  simp [applyEmitEnd, isUploadComplete, h]

/-- Shape of `applyAppendOk` when the stream already ended: the APPEND
callback performs the transition to FINALIZE. -/
theorem applyAppendOk_fin (s : St) (h : s.isFileStreamEnded = true) :
    applyAppendOk s = { s with
      appendPending := s.appendPending - 1
      isUploading := false
      finalizePending := s.finalizePending + 1
      sent := s.sent ++ [Cmd.finalizeC] } := by
  simp [applyAppendOk, isUploadComplete, h]

/-- Shape of `applyAppendOk` when the stream has not ended: increment the
segment counter and resume the stream. -/
theorem applyAppendOk_cont (s : St) (h : s.isFileStreamEnded = false) :
    applyAppendOk s = { s with
      appendPending := s.appendPending - 1
      isUploading := false
      chunkNumber := s.chunkNumber + 1
      paused := false } := by
  simp [applyAppendOk, isUploadComplete, h]

/-- The invariant holds right after INIT is posted. -/
theorem inv_initSt (mediaId : String) (chunks : List String) :
    Inv mediaId chunks initSt := by
  constructor <;> simp [initSt, finCount, appendsOf, hasErrCb]

/-- Shape of `applyFinalizeResp` per `checkAsyncFinishStep` outcome. -/
theorem applyFinalizeResp_cbErr (s : St) (resp : Except String Body) (e : String)
    (h : checkAsyncFinishStep resp = FinishOutcome.cbErr e) :
    applyFinalizeResp s resp = { s with
      finalizePending := s.finalizePending - 1
      cbs := s.cbs ++ [CbEvent.err e] } := by
  simp [applyFinalizeResp, h]

theorem applyFinalizeResp_cbSuccess (s : St) (resp : Except String Body) (b : Body)
    (h : checkAsyncFinishStep resp = FinishOutcome.cbSuccess b) :
    applyFinalizeResp s resp = { s with
      finalizePending := s.finalizePending - 1
      cbs := s.cbs ++ [CbEvent.ok b] } := by
  simp [applyFinalizeResp, h]

theorem applyFinalizeResp_schedule (s : St) (resp : Except String Body) (w : Nat)
    (h : checkAsyncFinishStep resp = FinishOutcome.scheduleStatus w) :
    applyFinalizeResp s resp = { s with
      finalizePending := s.finalizePending - 1
      timerPending := true } := by
  simp [applyFinalizeResp, h]

/-- Shape of `applyStatusResp` per `checkStatusStep` outcome. -/
theorem applyStatusResp_cbErr (s : St) (resp : Except String Body) (e : String)
    (h : checkStatusStep resp = StatusOutcome.cbErr e) :
    applyStatusResp s resp = { s with
      statusPending := false
      cbs := s.cbs ++ [CbEvent.err e] } := by
  simp [applyStatusResp, h]

theorem applyStatusResp_cbFailed (s : St) (resp : Except String Body) (m : String)
    (h : checkStatusStep resp = StatusOutcome.cbFailed m) :
    applyStatusResp s resp = { s with
      statusPending := false
      cbs := s.cbs ++ [CbEvent.err m] } := by
  simp [applyStatusResp, h]

theorem applyStatusResp_cbSuccess (s : St) (resp : Except String Body) (b : Body)
    (h : checkStatusStep resp = StatusOutcome.cbSuccess b) :
    applyStatusResp s resp = { s with
      statusPending := false
      cbs := s.cbs ++ [CbEvent.ok b] } := by
  simp [applyStatusResp, h]

theorem applyStatusResp_schedule (s : St) (resp : Except String Body) (w : Nat)
    (p : Option Nat) (h : checkStatusStep resp = StatusOutcome.scheduleStatus w p) :
    applyStatusResp s resp = { s with
      statusPending := false
      timerPending := true } := by
  simp [applyStatusResp, h]

theorem applyStatusResp_silent (s : St) (resp : Except String Body)
    (h : checkStatusStep resp = StatusOutcome.silentStop) :
    applyStatusResp s resp = { s with
      statusPending := false
      silenced := true } := by
  simp [applyStatusResp, h]

theorem applyStatusResp_thrown (s : St) (resp : Except String Body)
    (h : checkStatusStep resp = StatusOutcome.thrownError) :
    applyStatusResp s resp = { s with
      statusPending := false
      crashed := true } := by
  simp [applyStatusResp, h]

/-- FINALIZE cannot have been issued while the stream has not ended. -/
theorem fin_zero_of_not_ended {mediaId : String} {chunks : List String} {s : St}
    (hi : Inv mediaId chunks s) (h : s.endEmitted = false) :
    finCount s.sent = 0 := by
  rcases Nat.le_one_iff_eq_zero_or_eq_one.mp hi.finLe with h0 | h1
  · exact h0
  · exfalso
    have h2 := (hi.finFlags h1).1
    rw [h] at h2
    cases h2

/-- FINALIZE cannot have been issued while an APPEND is outstanding. -/
theorem fin_zero_of_uploading {mediaId : String} {chunks : List String} {s : St}
    (hi : Inv mediaId chunks s) (h : s.isUploading = true) :
    finCount s.sent = 0 := by
  rcases Nat.le_one_iff_eq_zero_or_eq_one.mp hi.finLe with h0 | h1
  · exact h0
  · exfalso
    have h2 := (hi.finFlags h1).2
    rw [h] at h2
    cases h2

/-- An outstanding APPEND means `isUploading` reads true. -/
theorem uploading_of_pend {mediaId : String} {chunks : List String} {s : St}
    (hi : Inv mediaId chunks s) (h : 0 < s.appendPending) :
    s.isUploading = true := by
  cases hu : s.isUploading
  · exfalso
    rw [hi.pendEq, hu] at h
    simp at h
  · rfl

/-- While `isUploading` reads true, exactly one APPEND is outstanding. -/
theorem pend_one {mediaId : String} {chunks : List String} {s : St}
    (hi : Inv mediaId chunks s) (h : s.isUploading = true) :
    s.appendPending = 1 := by
  rw [hi.pendEq, h]
  simp

/-- An outstanding APPEND means the stream exists. -/
theorem stream_of_pend {mediaId : String} {chunks : List String} {s : St}
    (hi : Inv mediaId chunks s) (h : 0 < s.appendPending) :
    s.streamCreated = true := by
  cases hsc : s.streamCreated
  · exfalso
    have h2 := (hi.noStream hsc).2.2.1
    omega
  · rfl

/-- An issued FINALIZE means the stream exists. -/
theorem stream_of_fin {mediaId : String} {chunks : List String} {s : St}
    (hi : Inv mediaId chunks s) (h : finCount s.sent = 1) :
    s.streamCreated = true := by
  cases hsc : s.streamCreated
  · exfalso
    have h2 := (hi.noStream hsc).2.2.2.2.2.2.1
    omega
  · rfl

/-- Once the stream exists, the INIT callback has been consumed. -/
theorem init_false_of_stream {mediaId : String} {chunks : List String} {s : St}
    (hi : Inv mediaId chunks s) (h : s.streamCreated = true) :
    s.initPending = false := by
  cases hip : s.initPending
  · rfl
  · exfalso
    have h2 := (hi.initInv hip).1
    rw [h] at h2
    cases h2

/-- Invariant preservation: INIT success response. -/
theorem inv_initOk (mediaId : String) (chunks : List String) {s : St}
    (hi : Inv mediaId chunks s) (hip : s.initPending = true) :
    Inv mediaId chunks (applyInitOk s) := by
  obtain ⟨hsc, hcbs, hpz⟩ := hi.initInv hip
  obtain ⟨hem, hen, hap, hfp, htp, hsp, hfc, hsil, hcrs, hpa⟩ := hi.noStream hsc
  have hne : hasErrCb s = false := by simp [hasErrCb, hcbs]
  refine ⟨?_, ?_, ?_, ?_, ?_, ?_, ?_, ?_, ?_, ?_, ?_, ?_, ?_, ?_, ?_, ?_, ?_, ?_, ?_, ?_⟩ <;>
    simp only [applyInitOk]
  · exact hi.pendEq
  · exact hi.uploadPaused
  · exact hi.endedFlag
  · exact hi.endedAll
  · exact hi.emittedLe
  · exact hi.unpausedCount
  · exact hi.chunkPend
  · exact hi.appendLog
  · exact hi.finLe
  · exact hi.finFlags
  · exact hi.finPendLe
  · exact hi.postFin
  · exact hi.pausedInv
  · exact hi.endedDone
  · intro h
    simp at h
  · intro h
    simp at h
  · intro h
    exact Or.inl trivial
  · exact hi.finDelivered
  · intro h
    have h2 : hasErrCb s = true := h
    rw [hne] at h2
    cases h2
  · intro h
    have h2 : hasErrCb s = true := h
    rw [hne] at h2
    cases h2

/-- Invariant preservation: INIT error response (`cb(err); return`). -/
theorem inv_initErr (mediaId : String) (chunks : List String) {s : St} (e : String)
    (hi : Inv mediaId chunks s) (hip : s.initPending = true) :
    Inv mediaId chunks (applyInitErr s e) := by
  obtain ⟨hsc, hcbs, hpz⟩ := hi.initInv hip
  obtain ⟨hem, hen, hap, hfp, htp, hsp, hfc, hsil, hcrs, hpa⟩ := hi.noStream hsc
  have herr : hasErrCb (applyInitErr s e) = true := by
    simp [hasErrCb, applyInitErr]
  refine ⟨?_, ?_, ?_, ?_, ?_, ?_, ?_, ?_, ?_, ?_, ?_, ?_, ?_, ?_, ?_, ?_, ?_, ?_, ?_, ?_⟩
  · exact hi.pendEq
  · exact hi.uploadPaused
  · exact hi.endedFlag
  · exact hi.endedAll
  · exact hi.emittedLe
  · exact hi.unpausedCount
  · exact Or.inr (Or.inr herr)
  · exact hi.appendLog
  · exact hi.finLe
  · exact hi.finFlags
  · exact hi.finPendLe
  · intro h
    simp only [applyInitErr] at h
    rcases h with h | h | h | h | h
    · rw [hfp] at h
      omega
    · exact absurd h (by simp [htp])
    · exact absurd h (by simp [hsp])
    · exact absurd h (by simp [hsil])
    · exact absurd h (by simp [hcrs])
  · intro h
    have h2 : s.paused = true := h
    rw [hpa] at h2
    cases h2
  · intro h
    have h2 : s.endEmitted = true := h
    rw [hen] at h2
    cases h2
  · intro h
    simp [applyInitErr] at h
  · intro h
    exact ⟨hem, hen, hap, hfp, htp, hsp, hfc, hsil, hcrs, hpa⟩
  · intro h
    exact Or.inr herr
  · intro hf
    have h2 : finCount s.sent = 1 := hf
    rw [hfc] at h2
    cases h2
  · intro h
    exact Or.inl hsc
  · intro h
    exact hap

/-- Invariant preservation: a `data` event fires. -/
theorem inv_emitData (mediaId : String) (chunks : List String) {s : St}
    (hi : Inv mediaId chunks s) (hstream : s.streamCreated = true)
    (hpz : s.paused = false) (hlt : s.emitted < chunks.length)
    (hnend : s.endEmitted = false) :
    Inv mediaId chunks (applyEmitData mediaId chunks s) := by
  have herrF : hasErrCb s = false := by
    cases herr : hasErrCb s
    · rfl
    · exfalso
      rcases hi.errStuck herr with h1 | h1 | h1
      · rw [hstream] at h1; cases h1
      · rw [hpz] at h1; cases h1
      · rw [hnend] at h1; cases h1
  have hupl : s.isUploading = false := by
    cases hu : s.isUploading
    · rfl
    · exfalso
      have h1 := hi.uploadPaused hu
      rw [hpz] at h1
      cases h1
  have hap0 : s.appendPending = 0 := by
    rw [hi.pendEq, hupl]
    simp
  have hfc0 : finCount s.sent = 0 := fin_zero_of_not_ended hi hnend
  have hchunk : s.chunkNumber = s.emitted := hi.unpausedCount hpz
  have hinitF : s.initPending = false := init_false_of_stream hi hstream
  refine ⟨?_, ?_, ?_, ?_, ?_, ?_, ?_, ?_, ?_, ?_, ?_, ?_, ?_, ?_, ?_, ?_, ?_, ?_, ?_, ?_⟩
  · simp [applyEmitData, hap0]
  · intro h
    simp [applyEmitData]
  · exact hi.endedFlag
  · intro h
    exfalso
    have h2 : s.endEmitted = true := h
    rw [hnend] at h2
    cases h2
  · simp only [applyEmitData]
    omega
  · intro h
    simp [applyEmitData] at h
  · refine Or.inl ?_
    simp only [applyEmitData]
    omega
  · simp only [applyEmitData]
    rw [appendsOf_append_app, hi.appendLog, List.range_succ, hchunk]
    simp
  · simp only [applyEmitData]
    rw [finCount_append_app]
    exact hi.finLe
  · intro h
    exfalso
    simp only [applyEmitData] at h
    rw [finCount_append_app] at h
    omega
  · simp only [applyEmitData]
    rw [finCount_append_app]
    exact hi.finPendLe
  · intro h
    exfalso
    simp only [applyEmitData] at h
    have h2 := hi.postFin h
    omega
  · intro h
    refine Or.inl ?_
    simp [applyEmitData, hap0]
  · intro h _
    exfalso
    have h2 : s.endEmitted = true := h
    rw [hnend] at h2
    cases h2
  · intro h
    exfalso
    have h2 : s.initPending = true := h
    rw [hinitF] at h2
    cases h2
  · intro h
    exfalso
    have h2 : s.streamCreated = false := h
    rw [hstream] at h2
    cases h2
  · intro h
    exact Or.inl hstream
  · intro h
    exfalso
    simp only [applyEmitData] at h
    rw [finCount_append_app] at h
    omega
  · intro h
    exfalso
    have h2 : hasErrCb s = true := h
    rw [herrF] at h2
    cases h2
  · intro h
    exfalso
    have h2 : hasErrCb s = true := h
    rw [herrF] at h2
    cases h2

/-- Invariant preservation: the `end` event fires. -/
theorem inv_emitEnd (mediaId : String) (chunks : List String) {s : St}
    (hi : Inv mediaId chunks s) (hstream : s.streamCreated = true)
    (hemit : s.emitted = chunks.length) (hnend : s.endEmitted = false) :
    Inv mediaId chunks (applyEmitEnd s) := by
  have hfc0 : finCount s.sent = 0 := fin_zero_of_not_ended hi hnend
  have hinitF : s.initPending = false := init_false_of_stream hi hstream
  cases hu : s.isUploading
  · -- no APPEND outstanding: the end handler itself posts FINALIZE
    rw [applyEmitEnd_fin s hu]
    have hfp0 : s.finalizePending = 0 := by
      have := hi.finPendLe
      omega
    refine ⟨?_, ?_, ?_, ?_, ?_, ?_, ?_, ?_, ?_, ?_, ?_, ?_, ?_, ?_, ?_, ?_, ?_, ?_, ?_, ?_⟩
    · exact hi.pendEq
    · exact hi.uploadPaused
    · rfl
    · intro _
      exact hemit
    · exact hi.emittedLe
    · exact hi.unpausedCount
    · refine Or.inr (Or.inl ?_)
      simp [hfc0]
    · simp only [appendsOf_append_fin]
      exact hi.appendLog
    · simp [hfc0]
    · intro _
      exact ⟨rfl, hu⟩
    · simp only [finCount_append_fin]
      omega
    · intro _
      simp [hfc0]
    · intro h
      refine Or.inr (Or.inl ?_)
      simp [hfc0]
    · intro _ _
      refine Or.inl ?_
      simp [hfc0]
    · intro h
      exfalso
      have h2 : s.initPending = true := h
      rw [hinitF] at h2
      cases h2
    · intro h
      exfalso
      have h2 : s.streamCreated = false := h
      rw [hstream] at h2
      cases h2
    · intro _
      exact Or.inl hstream
    · intro _ h2 _ _ _ _
      exfalso
      simp at h2
    · intro _
      exact Or.inr (Or.inr rfl)
    · intro h
      exact hi.errNoPend h
  · -- an APPEND is outstanding: only the flag is set
    rw [applyEmitEnd_wait s hu]
    refine ⟨?_, ?_, ?_, ?_, ?_, ?_, ?_, ?_, ?_, ?_, ?_, ?_, ?_, ?_, ?_, ?_, ?_, ?_, ?_, ?_⟩
    · exact hi.pendEq
    · exact hi.uploadPaused
    · rfl
    · intro _
      exact hemit
    · exact hi.emittedLe
    · exact hi.unpausedCount
    · rcases hi.chunkPend with h | h | h
      · exact Or.inl h
      · exfalso; omega
      · exact Or.inr (Or.inr h)
    · exact hi.appendLog
    · exact hi.finLe
    · intro h
      exfalso
      have h2 : finCount s.sent = 1 := h
      omega
    · exact hi.finPendLe
    · intro h
      exfalso
      have h2 := hi.postFin h
      omega
    · intro h
      rcases hi.pausedInv h with h2 | h2 | h2
      · exact Or.inl h2
      · exfalso; omega
      · exact Or.inr (Or.inr h2)
    · intro _ h2
      exfalso
      have h3 : s.isUploading = false := h2
      rw [hu] at h3
      cases h3
    · intro h
      exfalso
      have h2 : s.initPending = true := h
      rw [hinitF] at h2
      cases h2
    · intro h
      exfalso
      have h2 : s.streamCreated = false := h
      rw [hstream] at h2
      cases h2
    · intro _
      exact Or.inl hstream
    · intro h2 _ _ _ _ _
      exfalso
      have h3 : finCount s.sent = 1 := h2
      omega
    · intro _
      exact Or.inr (Or.inr rfl)
    · intro h
      exact hi.errNoPend h

/-- Invariant preservation: APPEND success response. -/
theorem inv_appendOk (mediaId : String) (chunks : List String) {s : St}
    (hi : Inv mediaId chunks s) (hpos : 0 < s.appendPending) :
    Inv mediaId chunks (applyAppendOk s) := by
  have hu : s.isUploading = true := uploading_of_pend hi hpos
  have hap1 : s.appendPending = 1 := pend_one hi hu
  have hpaused : s.paused = true := hi.uploadPaused hu
  have hfc0 : finCount s.sent = 0 := fin_zero_of_uploading hi hu
  have hfp0 : s.finalizePending = 0 := by
    have := hi.finPendLe
    omega
  have herrF : hasErrCb s = false := by
    cases herr : hasErrCb s
    · rfl
    · exfalso
      have h1 := hi.errNoPend herr
      omega
  have hstream : s.streamCreated = true := stream_of_pend hi hpos
  have hinitF : s.initPending = false := init_false_of_stream hi hstream
  cases hend : s.isFileStreamEnded
  · -- stream not ended: advance the segment counter and resume
    rw [applyAppendOk_cont s hend]
    have hend2 : s.endEmitted = false := by
      rw [← hi.endedFlag]
      exact hend
    have hchunkeq : s.chunkNumber + 1 = s.emitted := by
      rcases hi.chunkPend with h | h | h
      · omega
      · exfalso; omega
      · exfalso
        rw [herrF] at h
        cases h
    refine ⟨?_, ?_, ?_, ?_, ?_, ?_, ?_, ?_, ?_, ?_, ?_, ?_, ?_, ?_, ?_, ?_, ?_, ?_, ?_, ?_⟩
    · simp [hap1]
    · intro h
      simp at h
    · exact hi.endedFlag
    · intro h
      exfalso
      have h2 : s.endEmitted = true := h
      rw [hend2] at h2
      cases h2
    · exact hi.emittedLe
    · intro _
      exact hchunkeq
    · refine Or.inl ?_
      simp only []
      omega
    · exact hi.appendLog
    · exact hi.finLe
    · intro h
      exfalso
      have h2 : finCount s.sent = 1 := h
      omega
    · exact hi.finPendLe
    · intro h
      exfalso
      have h2 := hi.postFin h
      omega
    · intro h
      exfalso
      simp at h
    · intro h _
      exfalso
      have h2 : s.endEmitted = true := h
      rw [hend2] at h2
      cases h2
    · intro h
      exfalso
      have h2 : s.initPending = true := h
      rw [hinitF] at h2
      cases h2
    · intro h
      exfalso
      have h2 : s.streamCreated = false := h
      rw [hstream] at h2
      cases h2
    · intro _
      exact Or.inl hstream
    · intro h2 _ _ _ _ _
      exfalso
      have h3 : finCount s.sent = 1 := h2
      omega
    · intro h
      exfalso
      have h2 : hasErrCb s = true := h
      rw [herrF] at h2
      cases h2
    · intro h
      exfalso
      have h2 : hasErrCb s = true := h
      rw [herrF] at h2
      cases h2
  · -- stream ended: the APPEND callback posts FINALIZE
    rw [applyAppendOk_fin s hend]
    have hend2 : s.endEmitted = true := by
      rw [← hi.endedFlag]
      exact hend
    refine ⟨?_, ?_, ?_, ?_, ?_, ?_, ?_, ?_, ?_, ?_, ?_, ?_, ?_, ?_, ?_, ?_, ?_, ?_, ?_, ?_⟩
    · simp [hap1]
    · intro h
      simp at h
    · exact hi.endedFlag
    · exact hi.endedAll
    · exact hi.emittedLe
    · intro h
      exfalso
      have h2 : s.paused = false := h
      rw [hpaused] at h2
      cases h2
    · refine Or.inr (Or.inl ?_)
      simp [hfc0]
    · simp only [appendsOf_append_fin]
      exact hi.appendLog
    · simp [hfc0]
    · intro _
      exact ⟨hend2, rfl⟩
    · simp only [finCount_append_fin]
      omega
    · intro _
      simp [hfc0]
    · intro _
      refine Or.inr (Or.inl ?_)
      simp [hfc0]
    · intro _ _
      refine Or.inl ?_
      simp [hfc0]
    · intro h
      exfalso
      have h2 : s.initPending = true := h
      rw [hinitF] at h2
      cases h2
    · intro h
      exfalso
      have h2 : s.streamCreated = false := h
      rw [hstream] at h2
      cases h2
    · intro _
      exact Or.inl hstream
    · intro _ h2 _ _ _ _
      exfalso
      simp at h2
    · intro _
      exact Or.inr (Or.inr hend2)
    · intro _
      simp [hap1]

/-- Invariant preservation: APPEND error response (`cb(err)`, stream stays
paused forever). -/
theorem inv_appendErr (mediaId : String) (chunks : List String) {s : St} (e : String)
    (hi : Inv mediaId chunks s) (hpos : 0 < s.appendPending) :
    Inv mediaId chunks (applyAppendErr s e) := by
  have hu : s.isUploading = true := uploading_of_pend hi hpos
  have hap1 : s.appendPending = 1 := pend_one hi hu
  have hpaused : s.paused = true := hi.uploadPaused hu
  have hfc0 : finCount s.sent = 0 := fin_zero_of_uploading hi hu
  have hstream : s.streamCreated = true := stream_of_pend hi hpos
  have hinitF : s.initPending = false := init_false_of_stream hi hstream
  have herrT : hasErrCb (applyAppendErr s e) = true := by
    simp [hasErrCb, applyAppendErr]
  refine ⟨?_, ?_, ?_, ?_, ?_, ?_, ?_, ?_, ?_, ?_, ?_, ?_, ?_, ?_, ?_, ?_, ?_, ?_, ?_, ?_⟩
  · simp [applyAppendErr, hap1]
  · intro h
    simp [applyAppendErr] at h
  · exact hi.endedFlag
  · exact hi.endedAll
  · exact hi.emittedLe
  · intro h
    exfalso
    have h2 : s.paused = false := h
    rw [hpaused] at h2
    cases h2
  · exact Or.inr (Or.inr herrT)
  · exact hi.appendLog
  · exact hi.finLe
  · intro h
    exfalso
    have h2 : finCount s.sent = 1 := h
    omega
  · exact hi.finPendLe
  · intro h
    exfalso
    have h2 := hi.postFin h
    omega
  · intro _
    exact Or.inr (Or.inr herrT)
  · intro _ _
    exact Or.inr herrT
  · intro h
    exfalso
    have h2 : s.initPending = true := h
    rw [hinitF] at h2
    cases h2
  · intro h
    exfalso
    have h2 : s.streamCreated = false := h
    rw [hstream] at h2
    cases h2
  · intro _
    exact Or.inl hstream
  · intro h2 _ _ _ _ _
    exfalso
    have h3 : finCount s.sent = 1 := h2
    omega
  · intro _
    exact Or.inr (Or.inl hpaused)
  · intro _
    simp [applyAppendErr, hap1]

/-- Invariant preservation, generic form for every step that happens after
FINALIZE was issued (FINALIZE response, poll timer, STATUS response): such a
step only touches the poller bookkeeping, appends commands that are neither
APPEND nor FINALIZE, and appends callback invocations. -/
theorem inv_pollerPost (mediaId : String) (chunks : List String) {s : St}
    (hi : Inv mediaId chunks s) (hfc1 : finCount s.sent = 1)
    (fp : Nat) (tp sp sil cr : Bool) (extraC : List Cmd) (extraCb : List CbEvent)
    (hfpLe : fp ≤ 1)
    (hfinEq : finCount (s.sent ++ extraC) = finCount s.sent)
    (happEq : appendsOf (s.sent ++ extraC) = appendsOf s.sent)
    (hlive : fp = 0 → tp = false → sp = false → sil = false → cr = false →
      s.cbs ++ extraCb ≠ []) :
    Inv mediaId chunks { s with
      finalizePending := fp
      timerPending := tp
      statusPending := sp
      silenced := sil
      crashed := cr
      sent := s.sent ++ extraC
      cbs := s.cbs ++ extraCb } := by
  obtain ⟨hend2, huF⟩ := hi.finFlags hfc1
  have hap0 : s.appendPending = 0 := by
    rw [hi.pendEq, huF]
    simp
  have hstream : s.streamCreated = true := stream_of_fin hi hfc1
  have hinitF : s.initPending = false := init_false_of_stream hi hstream
  refine ⟨?_, ?_, ?_, ?_, ?_, ?_, ?_, ?_, ?_, ?_, ?_, ?_, ?_, ?_, ?_, ?_, ?_, ?_, ?_, ?_⟩
  · exact hi.pendEq
  · exact hi.uploadPaused
  · exact hi.endedFlag
  · exact hi.endedAll
  · exact hi.emittedLe
  · exact hi.unpausedCount
  · refine Or.inr (Or.inl ?_)
    show finCount (s.sent ++ extraC) = 1
    rw [hfinEq]
    exact hfc1
  · show appendsOf (s.sent ++ extraC) = _
    rw [happEq]
    exact hi.appendLog
  · show finCount (s.sent ++ extraC) ≤ 1
    rw [hfinEq]
    exact hi.finLe
  · intro _
    exact ⟨hend2, huF⟩
  · show fp ≤ finCount (s.sent ++ extraC)
    rw [hfinEq]
    omega
  · intro _
    show finCount (s.sent ++ extraC) = 1
    rw [hfinEq]
    exact hfc1
  · intro _
    refine Or.inr (Or.inl ?_)
    show finCount (s.sent ++ extraC) = 1
    rw [hfinEq]
    exact hfc1
  · intro _ _
    refine Or.inl ?_
    show finCount (s.sent ++ extraC) = 1
    rw [hfinEq]
    exact hfc1
  · intro h
    exfalso
    have h2 : s.initPending = true := h
    rw [hinitF] at h2
    cases h2
  · intro h
    exfalso
    have h2 : s.streamCreated = false := h
    rw [hstream] at h2
    cases h2
  · intro _
    exact Or.inl hstream
  · intro h1 h2 h3 h4 h5 h6
    exact hlive h2 h3 h4 h5 h6
  · intro _
    exact Or.inr (Or.inr hend2)
  · intro _
    exact hap0

/-- Invariant preservation: FINALIZE response (runs `checkAsyncFinish`). -/
theorem inv_finalizeResp (mediaId : String) (chunks : List String) {s : St}
    (resp : Except String Body) (hi : Inv mediaId chunks s)
    (hfpos : 0 < s.finalizePending) :
    Inv mediaId chunks (applyFinalizeResp s resp) := by
  have hfc1 : finCount s.sent = 1 := hi.postFin (Or.inl hfpos)
  have hfpLe : s.finalizePending - 1 ≤ 1 := by
    have := hi.finPendLe
    omega
  cases hout : checkAsyncFinishStep resp with
  | cbErr e =>
    rw [applyFinalizeResp_cbErr s resp e hout]
    have hEq : ({ s with
        finalizePending := s.finalizePending - 1
        cbs := s.cbs ++ [CbEvent.err e] } : St) = { s with
        finalizePending := s.finalizePending - 1
        timerPending := s.timerPending
        statusPending := s.statusPending
        silenced := s.silenced
        crashed := s.crashed
        sent := s.sent ++ []
        cbs := s.cbs ++ [CbEvent.err e] } := by
      simp
    rw [hEq]
    exact inv_pollerPost mediaId chunks hi hfc1 _ _ _ _ _ _ _ hfpLe (by simp)
      (by simp) (fun _ _ _ _ _ => by simp)
  | cbSuccess b =>
    rw [applyFinalizeResp_cbSuccess s resp b hout]
    have hEq : ({ s with
        finalizePending := s.finalizePending - 1
        cbs := s.cbs ++ [CbEvent.ok b] } : St) = { s with
        finalizePending := s.finalizePending - 1
        timerPending := s.timerPending
        statusPending := s.statusPending
        silenced := s.silenced
        crashed := s.crashed
        sent := s.sent ++ []
        cbs := s.cbs ++ [CbEvent.ok b] } := by
      simp
    rw [hEq]
    exact inv_pollerPost mediaId chunks hi hfc1 _ _ _ _ _ _ _ hfpLe (by simp)
      (by simp) (fun _ _ _ _ _ => by simp)
  | scheduleStatus w =>
    rw [applyFinalizeResp_schedule s resp w hout]
    have hEq : ({ s with
        finalizePending := s.finalizePending - 1
        timerPending := true } : St) = { s with
        finalizePending := s.finalizePending - 1
        timerPending := true
        statusPending := s.statusPending
        silenced := s.silenced
        crashed := s.crashed
        sent := s.sent ++ []
        cbs := s.cbs ++ [] } := by
      simp
    rw [hEq]
    exact inv_pollerPost mediaId chunks hi hfc1 _ _ _ _ _ _ _ hfpLe (by simp)
      (by simp) (fun _ htp _ _ _ => by cases htp)

/-- Invariant preservation: a poll timer fires and STATUS is posted. -/
theorem inv_timerFire (mediaId : String) (chunks : List String) {s : St}
    (hi : Inv mediaId chunks s) (htp : s.timerPending = true) :
    Inv mediaId chunks (applyTimerFire s) := by
  have hfc1 : finCount s.sent = 1 := hi.postFin (Or.inr (Or.inl htp))
  have hfpLe : s.finalizePending ≤ 1 := by
    have := hi.finPendLe
    omega
  have hEq : applyTimerFire s = { s with
      finalizePending := s.finalizePending
      timerPending := false
      statusPending := true
      silenced := s.silenced
      crashed := s.crashed
      sent := s.sent ++ [Cmd.statusC]
      cbs := s.cbs ++ [] } := by
    simp [applyTimerFire]
  rw [hEq]
  exact inv_pollerPost mediaId chunks hi hfc1 _ _ _ _ _ _ _ hfpLe (by simp)
    (by simp) (fun _ _ hsp _ _ => by cases hsp)

/-- Invariant preservation: STATUS response (runs the `checkStatus`
handler). -/
theorem inv_statusResp (mediaId : String) (chunks : List String) {s : St}
    (resp : Except String Body) (hi : Inv mediaId chunks s)
    (hsp : s.statusPending = true) :
    Inv mediaId chunks (applyStatusResp s resp) := by
  have hfc1 : finCount s.sent = 1 := hi.postFin (Or.inr (Or.inr (Or.inl hsp)))
  have hfpLe : s.finalizePending ≤ 1 := by
    have := hi.finPendLe
    omega
  cases hout : checkStatusStep resp with
  | cbErr e =>
    rw [applyStatusResp_cbErr s resp e hout]
    have hEq : ({ s with
        statusPending := false
        cbs := s.cbs ++ [CbEvent.err e] } : St) = { s with
        finalizePending := s.finalizePending
        timerPending := s.timerPending
        statusPending := false
        silenced := s.silenced
        crashed := s.crashed
        sent := s.sent ++ []
        cbs := s.cbs ++ [CbEvent.err e] } := by
      simp
    rw [hEq]
    exact inv_pollerPost mediaId chunks hi hfc1 _ _ _ _ _ _ _ hfpLe (by simp)
      (by simp) (fun _ _ _ _ _ => by simp)
  | cbFailed m =>
    rw [applyStatusResp_cbFailed s resp m hout]
    have hEq : ({ s with
        statusPending := false
        cbs := s.cbs ++ [CbEvent.err m] } : St) = { s with
        finalizePending := s.finalizePending
        timerPending := s.timerPending
        statusPending := false
        silenced := s.silenced
        crashed := s.crashed
        sent := s.sent ++ []
        cbs := s.cbs ++ [CbEvent.err m] } := by
      simp
    rw [hEq]
    exact inv_pollerPost mediaId chunks hi hfc1 _ _ _ _ _ _ _ hfpLe (by simp)
      (by simp) (fun _ _ _ _ _ => by simp)
  | cbSuccess b =>
    rw [applyStatusResp_cbSuccess s resp b hout]
    have hEq : ({ s with
        statusPending := false
        cbs := s.cbs ++ [CbEvent.ok b] } : St) = { s with
        finalizePending := s.finalizePending
        timerPending := s.timerPending
        statusPending := false
        silenced := s.silenced
        crashed := s.crashed
        sent := s.sent ++ []
        cbs := s.cbs ++ [CbEvent.ok b] } := by
      simp
    rw [hEq]
    exact inv_pollerPost mediaId chunks hi hfc1 _ _ _ _ _ _ _ hfpLe (by simp)
      (by simp) (fun _ _ _ _ _ => by simp)
  | scheduleStatus w p =>
    rw [applyStatusResp_schedule s resp w p hout]
    have hEq : ({ s with
        statusPending := false
        timerPending := true } : St) = { s with
        finalizePending := s.finalizePending
        timerPending := true
        statusPending := false
        silenced := s.silenced
        crashed := s.crashed
        sent := s.sent ++ []
        cbs := s.cbs ++ [] } := by
      simp
    rw [hEq]
    exact inv_pollerPost mediaId chunks hi hfc1 _ _ _ _ _ _ _ hfpLe (by simp)
      (by simp) (fun _ htp _ _ _ => by cases htp)
  | silentStop =>
    rw [applyStatusResp_silent s resp hout]
    have hEq : ({ s with
        statusPending := false
        silenced := true } : St) = { s with
        finalizePending := s.finalizePending
        timerPending := s.timerPending
        statusPending := false
        silenced := true
        crashed := s.crashed
        sent := s.sent ++ []
        cbs := s.cbs ++ [] } := by
      simp
    rw [hEq]
    exact inv_pollerPost mediaId chunks hi hfc1 _ _ _ _ _ _ _ hfpLe (by simp)
      (by simp) (fun _ _ _ hsil _ => by cases hsil)
  | thrownError =>
    rw [applyStatusResp_thrown s resp hout]
    have hEq : ({ s with
        statusPending := false
        crashed := true } : St) = { s with
        finalizePending := s.finalizePending
        timerPending := s.timerPending
        statusPending := false
        silenced := s.silenced
        crashed := true
        sent := s.sent ++ []
        cbs := s.cbs ++ [] } := by
      simp
    rw [hEq]
    exact inv_pollerPost mediaId chunks hi hfc1 _ _ _ _ _ _ _ hfpLe (by simp)
      (by simp) (fun _ _ _ _ hcr => by cases hcr)

/-- Invariant preservation along every step, in both stream models. -/
theorem inv_step (strict : Bool) (mediaId : String) (chunks : List String)
    {s s' : St} (hi : Inv mediaId chunks s)
    (hs : Step strict mediaId chunks s s') : Inv mediaId chunks s' := by
  cases hs with
  | initOk hcr hip => exact inv_initOk mediaId chunks hi hip
  | initErr e hcr hip => exact inv_initErr mediaId chunks e hi hip
  | emitData hcr hstream hpz hlt hnend =>
      exact inv_emitData mediaId chunks hi hstream hpz hlt hnend
  | emitEnd hcr hstream hemit hnend hstrict =>
      exact inv_emitEnd mediaId chunks hi hstream hemit hnend
  | appendOk hcr hpos => exact inv_appendOk mediaId chunks hi hpos
  | appendErr e hcr hpos => exact inv_appendErr mediaId chunks e hi hpos
  | finalizeResp resp hcr hfpos => exact inv_finalizeResp mediaId chunks resp hi hfpos
  | timerFire hcr htp => exact inv_timerFire mediaId chunks hi htp
  | statusResp resp hcr hsp => exact inv_statusResp mediaId chunks resp hi hsp

/-- Every reachable state of an upload session satisfies the invariant. -/
theorem reach_inv (strict : Bool) (mediaId : String) (chunks : List String)
    {s : St} (h : Reach strict mediaId chunks s) : Inv mediaId chunks s := by
  induction h with
  | base => exact inv_initSt mediaId chunks
  | step s s' hr hstep ih => exact inv_step strict mediaId chunks ih hstep

/-- While no APPEND is outstanding, `isUploading` reads false. -/
theorem uploading_false_of_pend0 {mediaId : String} {chunks : List String} {s : St}
    (hi : Inv mediaId chunks s) (h : s.appendPending = 0) :
    s.isUploading = false := by
  cases hu : s.isUploading
  · rfl
  · exfalso
    have h2 := pend_one hi hu
    omega

/-- In a quiescent non-crashed state nothing is outstanding. -/
theorem quiescent_pends (strict : Bool) (mediaId : String) (chunks : List String)
    {s : St} (hq : Quiescent strict mediaId chunks s) (hcr : s.crashed = false) :
    s.initPending = false ∧ s.appendPending = 0 ∧ s.finalizePending = 0
    ∧ s.timerPending = false ∧ s.statusPending = false := by
  refine ⟨?_, ?_, ?_, ?_, ?_⟩
  · cases h : s.initPending
    · rfl
    · exact absurd (Step.initOk s hcr h) (hq _)
  · rcases Nat.eq_zero_or_pos s.appendPending with h | h
    · exact h
    · exact absurd (Step.appendOk s hcr h) (hq _)
  · rcases Nat.eq_zero_or_pos s.finalizePending with h | h
    · exact h
    · exact absurd (Step.finalizeResp s (Except.error "e") hcr h) (hq _)
  · cases h : s.timerPending
    · rfl
    · exact absurd (Step.timerFire s hcr h) (hq _)
  · cases h : s.statusPending
    · rfl
    · exact absurd (Step.statusResp s (Except.error "e") hcr h) (hq _)

/-- In a quiescent state with no error callback, FINALIZE went out exactly
once — regardless of the order in which the exhaustion signal and the last
APPEND response arrived, and in both stream models. -/
theorem quiescent_noerr_fin (strict : Bool) (mediaId : String)
    (chunks : List String) {s : St} (hi : Inv mediaId chunks s)
    (hq : Quiescent strict mediaId chunks s) (hne : hasErrCb s = false) :
    finCount s.sent = 1 := by
  cases hcr : s.crashed
  · obtain ⟨hinitF, hap0, hfp0, htp0, hsp0⟩ := quiescent_pends strict mediaId chunks hq hcr
    have hstream : s.streamCreated = true := by
      rcases hi.initResolved hinitF with h | h
      · exact h
      · rw [hne] at h
        cases h
    cases hend : s.endEmitted
    · cases hpa : s.paused
      · rcases Nat.lt_or_ge s.emitted chunks.length with hlt | hge
        · exact absurd (Step.emitData s hcr hstream hpa hlt hend) (hq _)
        · have heq : s.emitted = chunks.length := le_antisymm hi.emittedLe hge
          exact absurd (Step.emitEnd s hcr hstream heq hend (fun _ => hpa)) (hq _)
      · rcases hi.pausedInv hpa with h | h | h
        · exfalso; omega
        · exact h
        · rw [hne] at h
          cases h
    · have huF : s.isUploading = false := uploading_false_of_pend0 hi hap0
      rcases hi.endedDone hend huF with h | h
      · exact h
      · rw [hne] at h
        cases h
  · exact hi.postFin (Or.inr (Or.inr (Or.inr (Or.inr hcr))))

/-- A step changes the FINALIZE count only by issuing FINALIZE, and at that
moment the resulting state reads `isUploading = false` and
`isFileStreamEnded = true` — the `_isUploadComplete()` predicate. -/
theorem fin_step_flags (strict : Bool) (mediaId : String) (chunks : List String)
    {s s' : St} (hs : Step strict mediaId chunks s s')
    (hne : finCount s'.sent ≠ finCount s.sent) :
    s'.isUploading = false ∧ s'.isFileStreamEnded = true
    ∧ finCount s'.sent = finCount s.sent + 1 := by
  cases hs with
  | initOk hcr hip => exact absurd rfl hne
  | initErr e hcr hip => exact absurd rfl hne
  | emitData hcr hstream hpz hlt hnend =>
    exfalso
    apply hne
    simp [applyEmitData]
  | emitEnd hcr hstream hemit hnend hstrict =>
    cases hu : s.isUploading
    · rw [applyEmitEnd_fin s hu]
      exact ⟨hu, rfl, by simp⟩
    · rw [applyEmitEnd_wait s hu] at hne ⊢
      exact absurd rfl hne
  | appendOk hcr hpos =>
    cases hend : s.isFileStreamEnded
    · rw [applyAppendOk_cont s hend] at hne ⊢
      exact absurd rfl hne
    · rw [applyAppendOk_fin s hend]
      exact ⟨rfl, hend, by simp⟩
  | appendErr e hcr hpos => exact absurd rfl hne
  | finalizeResp resp hcr hfpos =>
    exfalso
    apply hne
    cases hout : checkAsyncFinishStep resp with
    | cbErr e => rw [applyFinalizeResp_cbErr s resp e hout]
    | cbSuccess b => rw [applyFinalizeResp_cbSuccess s resp b hout]
    | scheduleStatus w => rw [applyFinalizeResp_schedule s resp w hout]
  | timerFire hcr htp =>
    exfalso
    apply hne
    simp [applyTimerFire]
  | statusResp resp hcr hsp =>
    exfalso
    apply hne
    cases hout : checkStatusStep resp with
    | cbErr e => rw [applyStatusResp_cbErr s resp e hout]
    | cbFailed m => rw [applyStatusResp_cbFailed s resp m hout]
    | cbSuccess b => rw [applyStatusResp_cbSuccess s resp b hout]
    | scheduleStatus w p => rw [applyStatusResp_schedule s resp w p hout]
    | silentStop => rw [applyStatusResp_silent s resp hout]
    | thrownError => rw [applyStatusResp_thrown s resp hout]

/-- `InvS` holds right after INIT is posted. -/
theorem invS_initSt (mediaId : String) (chunks : List String) :
    InvS mediaId chunks initSt := by
  constructor <;> simp [initSt]

/-- `InvS` preservation along strict-model steps. -/
theorem invS_step (mediaId : String) (chunks : List String) {s s' : St}
    (hi : Inv mediaId chunks s) (hj : InvS mediaId chunks s)
    (hs : Step true mediaId chunks s s') : InvS mediaId chunks s' := by
  cases hs with
  | initOk hcr hip =>
    obtain ⟨hsc, hcbs, hpz⟩ := hi.initInv hip
    obtain ⟨hem, hen, hap, hfp, htp, hsp, hfc, hsil, hcrs, hpa⟩ := hi.noStream hsc
    refine ⟨?_, ?_, ?_, ?_⟩
    · simp [applyInitOk, hcbs]
    · intro _
      simp [applyInitOk, hcbs]
    · simp only [applyInitOk]
      exact hj.pendExcl
    · intro h
      exfalso
      apply h
      simp [applyInitOk, hcbs]
  | initErr e hcr hip =>
    obtain ⟨hsc, hcbs, hpz⟩ := hi.initInv hip
    obtain ⟨hem, hen, hap, hfp, htp, hsp, hfc, hsil, hcrs, hpa⟩ := hi.noStream hsc
    refine ⟨?_, ?_, ?_, ?_⟩
    · simp [applyInitErr, hcbs]
    · intro h
      exfalso
      simp only [applyInitErr] at h
      rcases h with h | h | h | h | h
      · simp at h
      · omega
      · omega
      · rw [htp] at h; cases h
      · rw [hsp] at h; cases h
    · simp only [applyInitErr]
      exact hj.pendExcl
    · intro _
      exact Or.inl hsc
  | emitData hcr hstream hpz hlt hnend =>
    have hcbs : s.cbs = [] := by
      by_contra h
      rcases hj.errStall h with h1 | h1 | h1
      · rw [hstream] at h1; cases h1
      · rw [hpz] at h1; cases h1
      · rw [hnend] at h1; cases h1
    refine ⟨?_, ?_, ?_, ?_⟩
    · simp [applyEmitData, hcbs]
    · intro _
      simp [applyEmitData, hcbs]
    · simp only [applyEmitData]
      exact hj.pendExcl
    · intro h
      exfalso
      apply h
      simp [applyEmitData, hcbs]
  | emitEnd hcr hstream hemit hnend hstrict =>
    have hpz : s.paused = false := hstrict rfl
    have hcbs : s.cbs = [] := by
      by_contra h
      rcases hj.errStall h with h1 | h1 | h1
      · rw [hstream] at h1; cases h1
      · rw [hpz] at h1; cases h1
      · rw [hnend] at h1; cases h1
    have hfc0 : finCount s.sent = 0 := fin_zero_of_not_ended hi hnend
    have hfp0 : s.finalizePending = 0 := by
      have := hi.finPendLe
      omega
    have htp0 : s.timerPending = false := by
      cases h : s.timerPending
      · rfl
      · exfalso
        have := hi.postFin (Or.inr (Or.inl h))
        omega
    have hsp0 : s.statusPending = false := by
      cases h : s.statusPending
      · rfl
      · exfalso
        have := hi.postFin (Or.inr (Or.inr (Or.inl h)))
        omega
    cases hu : s.isUploading
    · rw [applyEmitEnd_fin s hu]
      refine ⟨?_, ?_, ?_, ?_⟩
      · simp [hcbs]
      · intro _
        exact hcbs
      · simp [hfp0, htp0, hsp0]
      · intro h
        exfalso
        exact h hcbs
    · rw [applyEmitEnd_wait s hu]
      refine ⟨?_, ?_, ?_, ?_⟩
      · simp [hcbs]
      · intro _
        exact hcbs
      · exact hj.pendExcl
      · intro h
        exfalso
        exact h hcbs
  | appendOk hcr hpos =>
    have hcbs : s.cbs = [] := hj.pendCbs (Or.inr (Or.inl hpos))
    have hu : s.isUploading = true := uploading_of_pend hi hpos
    have hfc0 : finCount s.sent = 0 := fin_zero_of_uploading hi hu
    have hfp0 : s.finalizePending = 0 := by
      have := hi.finPendLe
      omega
    have htp0 : s.timerPending = false := by
      cases h : s.timerPending
      · rfl
      · exfalso
        have := hi.postFin (Or.inr (Or.inl h))
        omega
    have hsp0 : s.statusPending = false := by
      cases h : s.statusPending
      · rfl
      · exfalso
        have := hi.postFin (Or.inr (Or.inr (Or.inl h)))
        omega
    cases hend : s.isFileStreamEnded
    · rw [applyAppendOk_cont s hend]
      refine ⟨?_, ?_, ?_, ?_⟩
      · simp [hcbs]
      · intro _
        exact hcbs
      · exact hj.pendExcl
      · intro h
        exfalso
        exact h hcbs
    · rw [applyAppendOk_fin s hend]
      refine ⟨?_, ?_, ?_, ?_⟩
      · simp [hcbs]
      · intro _
        exact hcbs
      · simp [hfp0, htp0, hsp0]
      · intro h
        exfalso
        exact h hcbs
  | appendErr e hcr hpos =>
    have hcbs : s.cbs = [] := hj.pendCbs (Or.inr (Or.inl hpos))
    have hu : s.isUploading = true := uploading_of_pend hi hpos
    have hpaused : s.paused = true := hi.uploadPaused hu
    have hfc0 : finCount s.sent = 0 := fin_zero_of_uploading hi hu
    have hfp0 : s.finalizePending = 0 := by
      have := hi.finPendLe
      omega
    have htp0 : s.timerPending = false := by
      cases h : s.timerPending
      · rfl
      · exfalso
        have := hi.postFin (Or.inr (Or.inl h))
        omega
    have hsp0 : s.statusPending = false := by
      cases h : s.statusPending
      · rfl
      · exfalso
        have := hi.postFin (Or.inr (Or.inr (Or.inl h)))
        omega
    have hstream : s.streamCreated = true := stream_of_pend hi hpos
    have hinitF : s.initPending = false := init_false_of_stream hi hstream
    refine ⟨?_, ?_, ?_, ?_⟩
    · simp [applyAppendErr, hcbs]
    · intro h
      exfalso
      simp only [applyAppendErr] at h
      rcases h with h | h | h | h | h
      · rw [hinitF] at h; cases h
      · have h2 := pend_one hi hu
        omega
      · omega
      · rw [htp0] at h; cases h
      · rw [hsp0] at h; cases h
    · simp only [applyAppendErr]
      exact hj.pendExcl
    · intro _
      exact Or.inr (Or.inl hpaused)
  | finalizeResp resp hcr hfpos =>
    have hcbs : s.cbs = [] := hj.pendCbs (Or.inr (Or.inr (Or.inl hfpos)))
    have hfc1 : finCount s.sent = 1 := hi.postFin (Or.inl hfpos)
    obtain ⟨hend2, huF⟩ := hi.finFlags hfc1
    have hap0 : s.appendPending = 0 := by
      rw [hi.pendEq, huF]
      simp
    have hfp1 : s.finalizePending = 1 := by
      have := hi.finPendLe
      omega
    have htp0 : s.timerPending = false := by
      cases h : s.timerPending
      · rfl
      · exfalso
        have h2 := hj.pendExcl
        rw [if_pos hfpos, if_pos h] at h2
        omega
    have hsp0 : s.statusPending = false := by
      cases h : s.statusPending
      · rfl
      · exfalso
        have h2 := hj.pendExcl
        rw [if_pos hfpos, if_pos h] at h2
        omega
    have hinitF : s.initPending = false :=
      init_false_of_stream hi (stream_of_fin hi hfc1)
    cases hout : checkAsyncFinishStep resp with
    | cbErr e =>
      rw [applyFinalizeResp_cbErr s resp e hout]
      refine ⟨?_, ?_, ?_, ?_⟩
      · simp [hcbs]
      · intro h
        exfalso
        simp only [] at h
        rcases h with h | h | h | h | h
        · rw [hinitF] at h; cases h
        · omega
        · omega
        · rw [htp0] at h; cases h
        · rw [hsp0] at h; cases h
      · simp [hfp1, htp0, hsp0]
      · intro _
        exact Or.inr (Or.inr hend2)
    | cbSuccess b =>
      rw [applyFinalizeResp_cbSuccess s resp b hout]
      refine ⟨?_, ?_, ?_, ?_⟩
      · simp [hcbs]
      · intro h
        exfalso
        simp only [] at h
        rcases h with h | h | h | h | h
        · rw [hinitF] at h; cases h
        · omega
        · omega
        · rw [htp0] at h; cases h
        · rw [hsp0] at h; cases h
      · simp [hfp1, htp0, hsp0]
      · intro _
        exact Or.inr (Or.inr hend2)
    | scheduleStatus w =>
      rw [applyFinalizeResp_schedule s resp w hout]
      refine ⟨?_, ?_, ?_, ?_⟩
      · simp [hcbs]
      · intro _
        exact hcbs
      · simp [hfp1, hsp0]
      · intro h
        exfalso
        exact h hcbs
  | timerFire hcr htp =>
    have hcbs : s.cbs = [] := hj.pendCbs (Or.inr (Or.inr (Or.inr (Or.inl htp))))
    have hfp0 : s.finalizePending = 0 := by
      rcases Nat.eq_zero_or_pos s.finalizePending with h | h
      · exact h
      · exfalso
        have h2 := hj.pendExcl
        rw [if_pos h, if_pos htp] at h2
        omega
    refine ⟨?_, ?_, ?_, ?_⟩
    · simp [applyTimerFire, hcbs]
    · intro _
      simp [applyTimerFire, hcbs]
    · simp [applyTimerFire, hfp0]
    · intro h
      exfalso
      apply h
      simp [applyTimerFire, hcbs]
  | statusResp resp hcr hsp =>
    have hcbs : s.cbs = [] := hj.pendCbs (Or.inr (Or.inr (Or.inr (Or.inr hsp))))
    have hfc1 : finCount s.sent = 1 := hi.postFin (Or.inr (Or.inr (Or.inl hsp)))
    obtain ⟨hend2, huF⟩ := hi.finFlags hfc1
    have hap0 : s.appendPending = 0 := by
      rw [hi.pendEq, huF]
      simp
    have hfp0 : s.finalizePending = 0 := by
      rcases Nat.eq_zero_or_pos s.finalizePending with h | h
      · exact h
      · exfalso
        have h2 := hj.pendExcl
        rw [if_pos h, if_pos hsp] at h2
        omega
    have htp0 : s.timerPending = false := by
      cases h : s.timerPending
      · rfl
      · exfalso
        have h2 := hj.pendExcl
        rw [if_pos h, if_pos hsp] at h2
        omega
    have hinitF : s.initPending = false :=
      init_false_of_stream hi (stream_of_fin hi hfc1)
    cases hout : checkStatusStep resp with
    | cbErr e =>
      rw [applyStatusResp_cbErr s resp e hout]
      refine ⟨?_, ?_, ?_, ?_⟩
      · simp [hcbs]
      · intro h
        exfalso
        simp only [] at h
        rcases h with h | h | h | h | h
        · rw [hinitF] at h; cases h
        · omega
        · omega
        · rw [htp0] at h; cases h
        · simp at h
      · simp [hfp0, htp0]
      · intro _
        exact Or.inr (Or.inr hend2)
    | cbFailed m =>
      rw [applyStatusResp_cbFailed s resp m hout]
      refine ⟨?_, ?_, ?_, ?_⟩
      · simp [hcbs]
      · intro h
        exfalso
        simp only [] at h
        rcases h with h | h | h | h | h
        · rw [hinitF] at h; cases h
        · omega
        · omega
        · rw [htp0] at h; cases h
        · simp at h
      · simp [hfp0, htp0]
      · intro _
        exact Or.inr (Or.inr hend2)
    | cbSuccess b =>
      rw [applyStatusResp_cbSuccess s resp b hout]
      refine ⟨?_, ?_, ?_, ?_⟩
      · simp [hcbs]
      · intro h
        exfalso
        simp only [] at h
        rcases h with h | h | h | h | h
        · rw [hinitF] at h; cases h
        · omega
        · omega
        · rw [htp0] at h; cases h
        · simp at h
      · simp [hfp0, htp0]
      · intro _
        exact Or.inr (Or.inr hend2)
    | scheduleStatus w p =>
      rw [applyStatusResp_schedule s resp w p hout]
      refine ⟨?_, ?_, ?_, ?_⟩
      · simp [hcbs]
      · intro _
        exact hcbs
      · simp [hfp0]
      · intro h
        exfalso
        exact h hcbs
    | silentStop =>
      rw [applyStatusResp_silent s resp hout]
      refine ⟨?_, ?_, ?_, ?_⟩
      · simp [hcbs]
      · intro h
        exfalso
        simp only [] at h
        rcases h with h | h | h | h | h
        · rw [hinitF] at h; cases h
        · omega
        · omega
        · rw [htp0] at h; cases h
        · simp at h
      · simp [hfp0, htp0]
      · intro _
        exact Or.inr (Or.inr hend2)
    | thrownError =>
      rw [applyStatusResp_thrown s resp hout]
      refine ⟨?_, ?_, ?_, ?_⟩
      · simp [hcbs]
      · intro h
        exfalso
        simp only [] at h
        rcases h with h | h | h | h | h
        · rw [hinitF] at h; cases h
        · omega
        · omega
        · rw [htp0] at h; cases h
        · simp at h
      · simp [hfp0, htp0]
      · intro _
        exact Or.inr (Or.inr hend2)

/-- Every state reachable in the strict model also satisfies `InvS`. -/
theorem reach_invS (mediaId : String) (chunks : List String) {s : St}
    (h : Reach true mediaId chunks s) : InvS mediaId chunks s := by
  induction h with
  | base => exact invS_initSt mediaId chunks
  | step s s' hr hstep ih =>
    exact invS_step mediaId chunks (reach_inv true mediaId chunks hr) ih hstep

/-- `mediaCategoryFor` as one decision tree over the exact MIME strings. -/
theorem mediaCategoryFor_cases (m : String) :
    mediaCategoryFor m =
      if m = "video/mp4" then some "tweet_video"
      else if m = "image/gif" then some "tweet_gif"
      else if m = "image/png" ∨ m = "image/jpeg" ∨ m = "image/webp" then some "tweet_image"
      else none := by
  by_cases h1 : m = "video/mp4" <;> by_cases h2 : m = "image/gif" <;>
    by_cases h3 : m = "image/png" <;> by_cases h4 : m = "image/jpeg" <;>
    by_cases h5 : m = "image/webp" <;>
    simp_all [mediaCategoryFor, imageMime, animatedGifMime, videoMime,
      List.contains]

/-- C3: for every file whose size is at least the applicable ceiling
(512 MiB for `video/mp4`, 15 MiB otherwise), `upload()` invokes the callback
exactly once with an error message carrying both the limit and the actual
size, and issues no transport call at all: the outcome is `cbError` and
never `post`. -/
theorem oversize_rejected_before_init (m : String) (size : Nat)
    (h : maxSizeFor m ≤ size) :
    initMedia m (Except.ok size) = InitOutcome.cbError (fmtOversize (maxSizeFor m) size)
  ∧ (initMedia m (Except.ok size)).callbackCount = 1
  ∧ (m = "video/mp4" → maxSizeFor m = 512 * 1024 * 1024)
  ∧ (m ≠ "video/mp4" → maxSizeFor m = 15 * 1024 * 1024) := by
  have hnlt : ¬ size < maxSizeFor m := by omega
  have hbranch : initMedia m (Except.ok size) =
      InitOutcome.cbError (fmtOversize (maxSizeFor m) size) := by
    simp only [initMedia]
    rw [if_neg hnlt]
  refine ⟨hbranch, by rw [hbranch]; rfl, ?_, ?_⟩
  · intro hm
    subst hm
    rfl
  · intro hm
    simp [maxSizeFor, videoMime, List.contains, hm, MAX_FILE_SIZE_BYTES]

/-- C3 witness: a 20 MB PNG is over its 15 MiB ceiling and is rejected
without an INIT. -/
theorem oversize_rejected_before_init_witness :
    maxSizeFor "image/png" ≤ 20000000
  ∧ initMedia "image/png" (Except.ok 20000000) =
      InitOutcome.cbError (fmtOversize (maxSizeFor "image/png") 20000000)
  ∧ (initMedia "image/png" (Except.ok 20000000)).callbackCount = 1 :=
  ⟨by decide,
   (oversize_rejected_before_init "image/png" 20000000 (by decide)).1,
   (oversize_rejected_before_init "image/png" 20000000 (by decide)).2.1⟩

/-- C5 counterexample: when the file-size stat fails, `upload()` invokes the
completion callback zero times, not once — `fs.statSync` at line 180 is not
wrapped in any try/catch, so the exception escapes `upload()`. -/
theorem stat_error_callback_cx :
    initMedia "video/mp4" (Except.error "ENOENT") = InitOutcome.thrown "ENOENT"
  ∧ (initMedia "video/mp4" (Except.error "ENOENT")).callbackCount = 0 := by
  exact ⟨rfl, rfl⟩

/-- C5 amended: if the file-size stat cannot be performed, the error escapes
`upload()` synchronously as an exception; the completion callback is never
invoked. -/
theorem stat_error_thrown (m : String) (e : String) :
    initMedia m (Except.error e) = InitOutcome.thrown e
  ∧ (initMedia m (Except.error e)).callbackCount = 0 :=
  ⟨rfl, rfl⟩

/-- C9: the INIT parameters always carry `command`, `media_type` and
`total_bytes`; `media_category` is `tweet_image` exactly for
png/jpeg/webp, `tweet_gif` exactly for gif, `tweet_video` exactly for mp4,
and the key is absent (`none`) for every other MIME type. -/
theorem init_media_category_mapping (m : String) (size : Nat)
    (h : size < maxSizeFor m) :
    initMedia m (Except.ok size) = InitOutcome.post
      { command := "INIT", media_type := m, total_bytes := size,
        media_category := mediaCategoryFor m }
  ∧ (mediaCategoryFor m = some "tweet_image" ↔
      (m = "image/png" ∨ m = "image/jpeg" ∨ m = "image/webp"))
  ∧ (mediaCategoryFor m = some "tweet_gif" ↔ m = "image/gif")
  ∧ (mediaCategoryFor m = some "tweet_video" ↔ m = "video/mp4")
  ∧ (m ≠ "image/png" → m ≠ "image/jpeg" → m ≠ "image/webp" →
      m ≠ "image/gif" → m ≠ "video/mp4" → mediaCategoryFor m = none) := by
  have hmc := mediaCategoryFor_cases m
  refine ⟨?_, ?_, ?_, ?_, ?_⟩
  · simp only [initMedia]
    rw [if_pos h]
  · rw [hmc]
    by_cases h1 : m = "video/mp4" <;> by_cases h2 : m = "image/gif" <;>
      by_cases h3 : m = "image/png" <;> by_cases h4 : m = "image/jpeg" <;>
      by_cases h5 : m = "image/webp" <;> simp_all
  · rw [hmc]
    by_cases h1 : m = "video/mp4" <;> by_cases h2 : m = "image/gif" <;>
      by_cases h3 : m = "image/png" <;> by_cases h4 : m = "image/jpeg" <;>
      by_cases h5 : m = "image/webp" <;> simp_all
  · rw [hmc]
    by_cases h1 : m = "video/mp4" <;> by_cases h2 : m = "image/gif" <;>
      by_cases h3 : m = "image/png" <;> by_cases h4 : m = "image/jpeg" <;>
      by_cases h5 : m = "image/webp" <;> simp_all
  · intro h3 h4 h5 h2 h1
    rw [hmc]
    simp [h1, h2, h3, h4, h5]

/-- C9 witness: a small GIF gets `media_category = tweet_gif`. -/
theorem init_media_category_mapping_witness :
    (0:Nat) < maxSizeFor "image/gif"
  ∧ initMedia "image/gif" (Except.ok 0) = InitOutcome.post
      { command := "INIT", media_type := "image/gif", total_bytes := 0,
        media_category := mediaCategoryFor "image/gif" }
  ∧ mediaCategoryFor "image/gif" = some "tweet_gif" :=
  ⟨by decide,
   (init_media_category_mapping "image/gif" 0 (by decide)).1,
   (init_media_category_mapping "image/gif" 0 (by decide)).2.2.1.mpr rfl⟩

/-- C6 counterexample: for an `in_progress` response whose
`check_after_secs` is present with value 0, the next poll is scheduled after
the default 3 seconds, not after the 0 seconds the response carries — the
source tests JavaScript truthiness (`if (!waitTime)`), not presence. -/
theorem wait_hint_zero_cx :
    checkStatusStep (Except.ok inProgressZeroHint) ≠ StatusOutcome.scheduleStatus 0 (some 42)
  ∧ checkStatusStep (Except.ok inProgressZeroHint) = StatusOutcome.scheduleStatus 3 (some 42) := by
  exact ⟨by decide, by decide⟩

/-- C6 amended: the poll delay is `check_after_secs` when present and
nonzero; when absent or zero it defaults to 5 seconds for the wait scheduled
from the FINALIZE response and to 3 seconds for every wait scheduled from an
`in_progress` STATUS response; each `in_progress` response surfaces
`progress_percent` and unconditionally schedules another STATUS poll (there
is no maximum poll count). -/
theorem poll_wait_derivation (body : Body) (pi : ProcessingInfo)
    (h : body.processing_info = some pi) :
    (∀ w, pi.check_after_secs = some w → w ≠ 0 →
        checkAsyncFinishStep (Except.ok body) = FinishOutcome.scheduleStatus w)
  ∧ ((pi.check_after_secs = none ∨ pi.check_after_secs = some 0) →
        checkAsyncFinishStep (Except.ok body) = FinishOutcome.scheduleStatus 5)
  ∧ (pi.state = "in_progress" →
        (∀ w, pi.check_after_secs = some w → w ≠ 0 →
            checkStatusStep (Except.ok body) =
              StatusOutcome.scheduleStatus w pi.progress_percent)
      ∧ ((pi.check_after_secs = none ∨ pi.check_after_secs = some 0) →
            checkStatusStep (Except.ok body) =
              StatusOutcome.scheduleStatus 3 pi.progress_percent)) := by
  refine ⟨?_, ?_, ?_⟩
  · intro w hw hw0
    simp [checkAsyncFinishStep, h, jsDefault, hw, hw0]
  · rintro (hc | hc) <;> simp [checkAsyncFinishStep, h, jsDefault, hc]
  · intro hst
    constructor
    · intro w hw hw0
      simp [checkStatusStep, h, hst, jsDefault, hw, hw0]
    · rintro (hc | hc) <;> simp [checkStatusStep, h, hst, jsDefault, hc]

/-- C6 witness: with no hint, the first wait defaults to 5 s and the
subsequent in-progress wait to 3 s, surfacing the progress percent. -/
theorem poll_wait_derivation_witness :
    checkAsyncFinishStep (Except.ok inProgressNoHint) = FinishOutcome.scheduleStatus 5
  ∧ checkStatusStep (Except.ok inProgressNoHint) = StatusOutcome.scheduleStatus 3 (some 10) :=
  ⟨(poll_wait_derivation inProgressNoHint
      { state := "in_progress", check_after_secs := none,
        progress_percent := some 10, error := none } rfl).2.1 (Or.inl rfl),
   ((poll_wait_derivation inProgressNoHint
      { state := "in_progress", check_after_secs := none,
        progress_percent := some 10, error := none } rfl).2.2 rfl).2 (Or.inl rfl)⟩

/-- C7: a STATUS response with `processing_info.state = "failed"` makes the
callback fire exactly once with an error whose message is exactly the
server-supplied `processing_info.error.message`, and no further poll is
scheduled (`timerPending` is not armed, `statusPending` is cleared). -/
theorem status_failed_message (body : Body) (pi : ProcessingInfo) (msg : String)
    (h1 : body.processing_info = some pi) (h2 : pi.state = "failed")
    (h3 : pi.error = some msg) :
    checkStatusStep (Except.ok body) = StatusOutcome.cbFailed msg
  ∧ ∀ s : St, (applyStatusResp s (Except.ok body)).cbs = s.cbs ++ [CbEvent.err msg]
      ∧ (applyStatusResp s (Except.ok body)).timerPending = s.timerPending
      ∧ (applyStatusResp s (Except.ok body)).statusPending = false := by
  have hstep : checkStatusStep (Except.ok body) = StatusOutcome.cbFailed msg := by
    simp [checkStatusStep, h1, h2, h3]
  refine ⟨hstep, ?_⟩
  intro s
  simp [applyStatusResp, hstep]

/-- C7 witness: the scripted message "transcode error" is delivered
verbatim. -/
theorem status_failed_message_witness :
    checkStatusStep (Except.ok
      { media_id_string := none,
        processing_info := some
          { state := "failed", check_after_secs := none,
            progress_percent := none, error := some "transcode error" } }) =
      StatusOutcome.cbFailed "transcode error" :=
  (status_failed_message _
    { state := "failed", check_after_secs := none,
      progress_percent := none, error := some "transcode error" }
    "transcode error" rfl rfl rfl).1

/-- C8: a FINALIZE response without `processing_info` makes the callback
fire immediately with the null error and that body, and no STATUS poll is
ever scheduled; with `processing_info` present the poller is entered (a
timer is armed) and the callback is not invoked. -/
theorem finalize_processing_info_branch (body : Body) :
    (body.processing_info = none →
        checkAsyncFinishStep (Except.ok body) = FinishOutcome.cbSuccess body
      ∧ ∀ s : St, (applyFinalizeResp s (Except.ok body)).cbs = s.cbs ++ [CbEvent.ok body]
          ∧ (applyFinalizeResp s (Except.ok body)).timerPending = s.timerPending
          ∧ (applyFinalizeResp s (Except.ok body)).statusPending = s.statusPending)
  ∧ (∀ pi, body.processing_info = some pi →
        checkAsyncFinishStep (Except.ok body) =
          FinishOutcome.scheduleStatus (jsDefault pi.check_after_secs 5)
      ∧ ∀ s : St, (applyFinalizeResp s (Except.ok body)).cbs = s.cbs
          ∧ (applyFinalizeResp s (Except.ok body)).timerPending = true) := by
  constructor
  · intro h
    have hstep : checkAsyncFinishStep (Except.ok body) = FinishOutcome.cbSuccess body := by
      simp [checkAsyncFinishStep, h]
    refine ⟨hstep, ?_⟩
    intro s
    simp [applyFinalizeResp, hstep]
  · intro pi h
    have hstep : checkAsyncFinishStep (Except.ok body) =
        FinishOutcome.scheduleStatus (jsDefault pi.check_after_secs 5) := by
      simp [checkAsyncFinishStep, h]
    refine ⟨hstep, ?_⟩
    intro s
    simp [applyFinalizeResp, hstep]

/-- C8 witness: evaluated on a body without `processing_info` and on one
with it. -/
theorem finalize_processing_info_branch_witness :
    checkAsyncFinishStep (Except.ok { media_id_string := some "1", processing_info := none }) =
      FinishOutcome.cbSuccess { media_id_string := some "1", processing_info := none }
  ∧ checkAsyncFinishStep (Except.ok inProgressNoHint) = FinishOutcome.scheduleStatus 5 :=
  ⟨((finalize_processing_info_branch
      { media_id_string := some "1", processing_info := none }).1 rfl).1,
   ((finalize_processing_info_branch inProgressNoHint).2
      { state := "in_progress", check_after_secs := none,
        progress_percent := some 10, error := none } rfl).1⟩

/-- C10: a STATUS response whose `processing_info.state` is none of
`in_progress`, `failed`, `succeeded` falls through the switch: no callback
is invoked and no new poll is scheduled — the upload terminates silently. -/
theorem status_unknown_state_silent (body : Body) (pi : ProcessingInfo)
    (h1 : body.processing_info = some pi)
    (h2 : pi.state ≠ "in_progress") (h3 : pi.state ≠ "failed")
    (h4 : pi.state ≠ "succeeded") :
    checkStatusStep (Except.ok body) = StatusOutcome.silentStop
  ∧ ∀ s : St, applyStatusResp s (Except.ok body) =
      { s with statusPending := false, silenced := true } := by
  have hstep : checkStatusStep (Except.ok body) = StatusOutcome.silentStop := by
    simp [checkStatusStep, h1, h2, h3, h4]
  refine ⟨hstep, ?_⟩
  intro s
  simp [applyStatusResp, hstep]

/-- C10 witness: the undocumented state "pending" is swallowed silently. -/
theorem status_unknown_state_silent_witness :
    checkStatusStep (Except.ok
      { media_id_string := none,
        processing_info := some
          { state := "pending", check_after_secs := none,
            progress_percent := none, error := none } }) = StatusOutcome.silentStop :=
  (status_unknown_state_silent _
    { state := "pending", check_after_secs := none,
      progress_percent := none, error := none }
    rfl (by decide) (by decide) (by decide)).1

theorem reach_silent : Reach true "7" [] silentFinalSt := by
  have r1 : Reach true "7" [] (applyInitOk initSt) :=
    Reach.step _ _ Reach.base (Step.initOk _ rfl rfl)
  have r2 : Reach true "7" [] (applyEmitEnd (applyInitOk initSt)) :=
    Reach.step _ _ r1 (Step.emitEnd _ rfl rfl rfl rfl (fun _ => rfl))
  have r3 : Reach true "7" []
      (applyFinalizeResp (applyEmitEnd (applyInitOk initSt)) (Except.ok procBody)) :=
    Reach.step _ _ r2 (Step.finalizeResp _ _ rfl (by decide))
  have r4 : Reach true "7" []
      (applyTimerFire
        (applyFinalizeResp (applyEmitEnd (applyInitOk initSt)) (Except.ok procBody))) :=
    Reach.step _ _ r3 (Step.timerFire _ rfl (by decide))
  exact Reach.step _ _ r4 (Step.statusResp _ _ rfl (by decide))

theorem silentFinalSt_eq : silentFinalSt =
    { isUploading := false, isFileStreamEnded := true, chunkNumber := 0,
      paused := false, emitted := 0, endEmitted := true, streamCreated := true,
      initPending := false, appendPending := 0, finalizePending := 0,
      timerPending := false, statusPending := false, silenced := true,
      crashed := false, sent := [Cmd.initC, Cmd.finalizeC, Cmd.statusC],
      cbs := [] } := by
  decide

theorem quiescent_silent : Quiescent true "7" [] silentFinalSt := by
  rw [Quiescent, silentFinalSt_eq]
  intro s' hs
  cases hs <;> simp_all

theorem reach_happy (strict : Bool) : Reach strict "m" ["a"] happyFinalSt := by
  have r1 : Reach strict "m" ["a"] (applyInitOk initSt) :=
    Reach.step _ _ Reach.base (Step.initOk _ rfl rfl)
  have r2 : Reach strict "m" ["a"] (applyEmitData "m" ["a"] (applyInitOk initSt)) :=
    Reach.step _ _ r1 (Step.emitData _ rfl rfl rfl (by decide) rfl)
  have r3 : Reach strict "m" ["a"]
      (applyAppendOk (applyEmitData "m" ["a"] (applyInitOk initSt))) :=
    Reach.step _ _ r2 (Step.appendOk _ rfl (by decide))
  have r4 : Reach strict "m" ["a"]
      (applyEmitEnd (applyAppendOk (applyEmitData "m" ["a"] (applyInitOk initSt)))) :=
    Reach.step _ _ r3 (Step.emitEnd _ (by decide) (by decide) (by decide)
      (by decide) (fun _ => by decide))
  exact Reach.step _ _ r4 (Step.finalizeResp _ _ (by decide) (by decide))

theorem happyFinalSt_eq : happyFinalSt =
    { isUploading := false, isFileStreamEnded := true, chunkNumber := 1,
      paused := false, emitted := 1, endEmitted := true, streamCreated := true,
      initPending := false, appendPending := 0, finalizePending := 0,
      timerPending := false, statusPending := false, silenced := false,
      crashed := false,
      sent := [Cmd.initC, Cmd.append "m" "a" 0, Cmd.finalizeC],
      cbs := [CbEvent.ok plainBody] } := by
  decide

theorem quiescent_happy (strict : Bool) : Quiescent strict "m" ["a"] happyFinalSt := by
  rw [Quiescent, happyFinalSt_eq]
  intro s' hs
  cases hs <;> simp_all

/-- C1: in every reachable session state — in both stream models, hence for
every interleaving of the exhaustion signal with APPEND responses — the
FINALIZE command has been issued at most once; any step that issues it lands
in a state with `isUploading = false` and `isFileStreamEnded = true` (the
`_isUploadComplete()` predicate, checked by whichever of the two event
handlers runs last); and every completed (quiescent) error-free upload has
issued it exactly once. -/
theorem upload_finalize_exactly_once (strict : Bool) (mediaId : String)
    (chunks : List String) (s : St) (h : Reach strict mediaId chunks s) :
    finCount s.sent ≤ 1
  ∧ (∀ s', Step strict mediaId chunks s s' →
      finCount s'.sent ≠ finCount s.sent →
      s'.isUploading = false ∧ s'.isFileStreamEnded = true
      ∧ finCount s'.sent = finCount s.sent + 1)
  ∧ (Quiescent strict mediaId chunks s → hasErrCb s = false →
      finCount s.sent = 1) := by
  have hi := reach_inv strict mediaId chunks h
  exact ⟨hi.finLe,
    fun s' hs hne => fin_step_flags strict mediaId chunks hs hne,
    fun hq hne => quiescent_noerr_fin strict mediaId chunks hi hq hne⟩

/-- C1 witness: the one-chunk happy-path execution issues FINALIZE exactly
once. -/
theorem upload_finalize_exactly_once_witness :
    finCount happyFinalSt.sent = 1 :=
  (upload_finalize_exactly_once false "m" ["a"] happyFinalSt
    (reach_happy false)).2.2 (quiescent_happy false) rfl

/-- C2: in every reachable session state the APPEND log is exactly the
sequence of segment indices `0, 1, …, emitted-1` in order (gap-free and
strictly increasing); at most one APPEND is outstanding; any step that
issues an APPEND starts with none outstanding, pauses the source, and uses
the next index in read order; the segment counter only advances by one on a
successful APPEND response (never on an error); and a completed error-free
upload has appended exactly one command per chunk of the file. -/
theorem upload_append_sequence (strict : Bool) (mediaId : String)
    (chunks : List String) (s : St) (h : Reach strict mediaId chunks s) :
    appendsOf s.sent =
      (List.range s.emitted).map (fun i => Cmd.append mediaId (chunks.getD i "") i)
  ∧ s.appendPending ≤ 1
  ∧ (∀ s' a b c, Step strict mediaId chunks s s' →
      s'.sent = s.sent ++ [Cmd.append a b c] →
      s.appendPending = 0 ∧ s'.paused = true ∧ s'.appendPending = 1
      ∧ c = s.emitted)
  ∧ (∀ s', Step strict mediaId chunks s s' →
      s'.chunkNumber ≠ s.chunkNumber →
      s'.chunkNumber = s.chunkNumber + 1 ∧ 0 < s.appendPending
      ∧ s'.cbs = s.cbs)
  ∧ (Quiescent strict mediaId chunks s → hasErrCb s = false →
      s.emitted = chunks.length
      ∧ (appendsOf s.sent).length = chunks.length) := by
  have hi := reach_inv strict mediaId chunks h
  refine ⟨hi.appendLog, ?_, ?_, ?_, ?_⟩
  · rw [hi.pendEq]
    split <;> omega
  · intro s' a b c hs heq
    cases hs with
    | initOk hcr hip =>
      exfalso
      have h2 := congrArg List.length heq
      simp [applyInitOk] at h2
    | initErr e2 hcr hip =>
      exfalso
      have h2 := congrArg List.length heq
      simp [applyInitErr] at h2
    | emitData hcr hstream hpz hlt hnend =>
      have hupl : s.isUploading = false := by
        cases hu : s.isUploading
        · rfl
        · exfalso
          have h1 := hi.uploadPaused hu
          rw [hpz] at h1
          cases h1
      have hap0 : s.appendPending = 0 := by
        rw [hi.pendEq, hupl]
        simp
      have hidx : c = s.chunkNumber := by
        have h2 : s.sent ++ [Cmd.append mediaId (chunks.getD s.emitted "") s.chunkNumber]
            = s.sent ++ [Cmd.append a b c] := heq
        have h3 := List.append_cancel_left h2
        simp [Cmd.append.injEq] at h3
        exact h3.2.2.symm
      refine ⟨hap0, by simp [applyEmitData], by simp [applyEmitData, hap0], ?_⟩
      rw [hidx]
      exact hi.unpausedCount hpz
    | emitEnd hcr hstream hemit hnend hstrict =>
      exfalso
      cases hu : s.isUploading
      · rw [applyEmitEnd_fin s hu] at heq
        have h3 := List.append_cancel_left heq
        simp at h3
      · rw [applyEmitEnd_wait s hu] at heq
        have h2 := congrArg List.length heq
        simp at h2
    | appendOk hcr hpos =>
      exfalso
      cases hend : s.isFileStreamEnded
      · rw [applyAppendOk_cont s hend] at heq
        have h2 := congrArg List.length heq
        simp at h2
      · rw [applyAppendOk_fin s hend] at heq
        have h3 := List.append_cancel_left heq
        simp at h3
    | appendErr e2 hcr hpos =>
      exfalso
      have h2 := congrArg List.length heq
      simp [applyAppendErr] at h2
    | finalizeResp resp hcr hfpos =>
      exfalso
      cases hout : checkAsyncFinishStep resp with
      | cbErr e2 =>
        rw [applyFinalizeResp_cbErr s resp e2 hout] at heq
        have h2 := congrArg List.length heq
        simp at h2
      | cbSuccess b2 =>
        rw [applyFinalizeResp_cbSuccess s resp b2 hout] at heq
        have h2 := congrArg List.length heq
        simp at h2
      | scheduleStatus w =>
        rw [applyFinalizeResp_schedule s resp w hout] at heq
        have h2 := congrArg List.length heq
        simp at h2
    | timerFire hcr htp =>
      exfalso
      have h2 : s.sent ++ [Cmd.statusC] = s.sent ++ [Cmd.append a b c] := heq
      have h3 := List.append_cancel_left h2
      simp at h3
    | statusResp resp hcr hsp =>
      exfalso
      cases hout : checkStatusStep resp with
      | cbErr e2 =>
        rw [applyStatusResp_cbErr s resp e2 hout] at heq
        have h2 := congrArg List.length heq
        simp at h2
      | cbFailed m =>
        rw [applyStatusResp_cbFailed s resp m hout] at heq
        have h2 := congrArg List.length heq
        simp at h2
      | cbSuccess b2 =>
        rw [applyStatusResp_cbSuccess s resp b2 hout] at heq
        have h2 := congrArg List.length heq
        simp at h2
      | scheduleStatus w p =>
        rw [applyStatusResp_schedule s resp w p hout] at heq
        have h2 := congrArg List.length heq
        simp at h2
      | silentStop =>
        rw [applyStatusResp_silent s resp hout] at heq
        have h2 := congrArg List.length heq
        simp at h2
      | thrownError =>
        rw [applyStatusResp_thrown s resp hout] at heq
        have h2 := congrArg List.length heq
        simp at h2
  · intro s' hs hne
    cases hs with
    | initOk hcr hip => exact absurd rfl hne
    | initErr e2 hcr hip => exact absurd rfl hne
    | emitData hcr hstream hpz hlt hnend => exact absurd rfl hne
    | emitEnd hcr hstream hemit hnend hstrict =>
      exfalso
      cases hu : s.isUploading
      · rw [applyEmitEnd_fin s hu] at hne
        exact hne rfl
      · rw [applyEmitEnd_wait s hu] at hne
        exact hne rfl
    | appendOk hcr hpos =>
      cases hend : s.isFileStreamEnded
      · rw [applyAppendOk_cont s hend] at hne ⊢
        exact ⟨rfl, hpos, rfl⟩
      · exfalso
        rw [applyAppendOk_fin s hend] at hne
        exact hne rfl
    | appendErr e2 hcr hpos => exact absurd rfl hne
    | finalizeResp resp hcr hfpos =>
      exfalso
      cases hout : checkAsyncFinishStep resp with
      | cbErr e2 =>
        rw [applyFinalizeResp_cbErr s resp e2 hout] at hne
        exact hne rfl
      | cbSuccess b2 =>
        rw [applyFinalizeResp_cbSuccess s resp b2 hout] at hne
        exact hne rfl
      | scheduleStatus w =>
        rw [applyFinalizeResp_schedule s resp w hout] at hne
        exact hne rfl
    | timerFire hcr htp => exact absurd rfl hne
    | statusResp resp hcr hsp =>
      exfalso
      cases hout : checkStatusStep resp with
      | cbErr e2 =>
        rw [applyStatusResp_cbErr s resp e2 hout] at hne
        exact hne rfl
      | cbFailed m =>
        rw [applyStatusResp_cbFailed s resp m hout] at hne
        exact hne rfl
      | cbSuccess b2 =>
        rw [applyStatusResp_cbSuccess s resp b2 hout] at hne
        exact hne rfl
      | scheduleStatus w p =>
        rw [applyStatusResp_schedule s resp w p hout] at hne
        exact hne rfl
      | silentStop =>
        rw [applyStatusResp_silent s resp hout] at hne
        exact hne rfl
      | thrownError =>
        rw [applyStatusResp_thrown s resp hout] at hne
        exact hne rfl
  · intro hq hne
    have hfc1 := quiescent_noerr_fin strict mediaId chunks hi hq hne
    have hend := (hi.finFlags hfc1).1
    have hemN := hi.endedAll hend
    refine ⟨hemN, ?_⟩
    rw [hi.appendLog]
    simp [hemN]

/-- C2 witness: the one-chunk happy path appends exactly once, at segment
index 0, with the source's chunk payload. -/
theorem upload_append_sequence_witness :
    appendsOf happyFinalSt.sent = [Cmd.append "m" "a" 0]
  ∧ happyFinalSt.appendPending ≤ 1
  ∧ happyFinalSt.emitted = 1 := by
  have h := upload_append_sequence false "m" ["a"] happyFinalSt (reach_happy false)
  refine ⟨?_, h.2.1, ?_⟩
  · rw [h.1]
    decide
  · exact (h.2.2.2.2 (quiescent_happy false) rfl).1

/-- C4 counterexample: a complete upload run (INIT ok, empty file, FINALIZE,
FINALIZE response with `processing_info`, STATUS poll, STATUS response with
the unrecognized state "pending") reaches quiescence with ZERO callback
invocations — the claim's "the completion callback is invoked exactly once"
is false for this upload. -/
theorem upload_callback_cx :
    Reach true "7" [] silentFinalSt
  ∧ Quiescent true "7" [] silentFinalSt
  ∧ silentFinalSt.cbs = [] :=
  ⟨reach_silent, quiescent_silent, rfl⟩

/-- C4 amended: assuming the chunk source never emits its exhaustion event
while paused (Node stream behavior, `strict = true`), the completion
callback is invoked at most once per upload; after an error callback no
further event of the session can fire at all (the error short-circuits all
further protocol steps); and a quiescent upload that neither saw an
unrecognized STATUS state nor crashed on a malformed STATUS body has
invoked the callback exactly once. -/
theorem upload_callback_at_most_once (mediaId : String) (chunks : List String)
    (s : St) (h : Reach true mediaId chunks s) :
    s.cbs.length ≤ 1
  ∧ (hasErrCb s = true → Quiescent true mediaId chunks s)
  ∧ (Quiescent true mediaId chunks s → s.silenced = false → s.crashed = false →
      s.cbs.length = 1) := by
  have hi := reach_inv true mediaId chunks h
  have hj := reach_invS mediaId chunks h
  refine ⟨hj.cbsLe, ?_, ?_⟩
  · intro herr s' hs
    have hcbs : s.cbs ≠ [] := by
      intro hc
      simp [hasErrCb, hc] at herr
    cases hs with
    | initOk hcr hip => exact hcbs (hj.pendCbs (Or.inl hip))
    | initErr e hcr hip => exact hcbs (hj.pendCbs (Or.inl hip))
    | emitData hcr hstream hpz hlt hnend =>
      rcases hj.errStall hcbs with h1 | h1 | h1
      · rw [hstream] at h1; cases h1
      · rw [hpz] at h1; cases h1
      · rw [hnend] at h1; cases h1
    | emitEnd hcr hstream hemit hnend hstrict =>
      have hpz := hstrict rfl
      rcases hj.errStall hcbs with h1 | h1 | h1
      · rw [hstream] at h1; cases h1
      · rw [hpz] at h1; cases h1
      · rw [hnend] at h1; cases h1
    | appendOk hcr hpos => exact hcbs (hj.pendCbs (Or.inr (Or.inl hpos)))
    | appendErr e hcr hpos => exact hcbs (hj.pendCbs (Or.inr (Or.inl hpos)))
    | finalizeResp resp hcr hfpos =>
      exact hcbs (hj.pendCbs (Or.inr (Or.inr (Or.inl hfpos))))
    | timerFire hcr htp =>
      exact hcbs (hj.pendCbs (Or.inr (Or.inr (Or.inr (Or.inl htp)))))
    | statusResp resp hcr hsp =>
      exact hcbs (hj.pendCbs (Or.inr (Or.inr (Or.inr (Or.inr hsp)))))
  · intro hq hsil hcr
    by_cases hc : s.cbs = []
    · exfalso
      have hne : hasErrCb s = false := by simp [hasErrCb, hc]
      have hfc1 := quiescent_noerr_fin true mediaId chunks hi hq hne
      obtain ⟨hinitF, hap0, hfp0, htp0, hsp0⟩ :=
        quiescent_pends true mediaId chunks hq hcr
      exact hi.finDelivered hfc1 hfp0 htp0 hsp0 hsil hcr hc
    · have h1 : 0 < s.cbs.length := List.length_pos.mpr hc
      have h2 := hj.cbsLe
      omega

/-- C4 witness: the one-chunk happy path invokes the callback exactly
once. -/
theorem upload_callback_at_most_once_witness :
    happyFinalSt.cbs.length = 1 :=
  (upload_callback_at_most_once "m" ["a"] happyFinalSt (reach_happy true)).2.2
    (quiescent_happy true) rfl rfl

end FileUploader

end Twit
